import Mathlib

/-!
# On-demand service broker: error taxonomy and startup checks

A shallow embedding of `broker/errors.go`, `broker/startup_checks.go` and
`purger/fakes/fake_cloud_foundry_client.go`, together with models of the registry client
(package `cf`), of the management API (package `mgmtapi`), of the update operation and of
the quota validator, which are known here through their test suites and the
specification only.

Go strings are Lean strings, Go `int` is `Int`, a Go `error` interface value is
`Option GoError` (`none` is `nil`), and a Go map is the list of its entries in
the order the `range` loop visits them.
-/

namespace strings

/-- Substring test on texts, after Go `strings.Contains(s, substr)`. -/
def Contains (s substr : String) : Prop := substr.data <:+: s.data

instance (s substr : String) : Decidable (Contains s substr) :=
  inferInstanceAs (Decidable (substr.data <:+: s.data))

end strings

namespace fmt

/-- The verb `%d` applied to a Go `int`: its decimal text, with a leading minus sign
when negative. -/
def formatInt : Int → String
  | Int.ofNat n => Nat.repr n
  | Int.negSucc n => "-" ++ Nat.repr (n + 1)

end fmt

namespace broker

/-- The dynamic type of a Go error value. `errorString` is what `errors.New` and
`fmt.Errorf` build; the four adapter types are the ones `adapterToAPIError` switches on;
`other` is any further type, by name. -/
inductive ErrorType where
  | errorString
  | BindingAlreadyExistsError
  | BindingNotFoundError
  | AppGuidNotProvidedError
  | UnknownFailureError
  | OperationInProgressError
  | other (name : String)
deriving DecidableEq, Repr

/-- A non-nil Go error value: its dynamic type and the text its `Error()` method returns. -/
structure GoError where
  type : ErrorType
  msg : String
deriving DecidableEq, Repr

/-- The method `Error()` of a non-nil error. -/
def GoError.Error (e : GoError) : String := e.msg

/-- The Go call `errors.New(text)`. -/
def errors.New (text : String) : GoError := ⟨ErrorType.errorString, text⟩

/-- The verb `%s` applied to an error interface value: the text of `Error()`, and the
bad-verb marker of package fmt for a nil interface. -/
def fmtS : Option GoError → String
  | some e => e.Error
  | none => "%!s(<nil>)"

/-- Modelled from the spec: package `brokercontext` is not among the sources. A request
context is the five request-scoped values that `GetServiceName`, `GetInstanceID`,
`GetReqID`, `GetOperation` and `GetBoshTaskID` read from it (offering name, instance id,
request id, operation name, remote task id). -/
structure Context where
  serviceName : String
  instanceID : String
  reqID : String
  operation : String
  boshTaskID : Int
deriving DecidableEq, Repr

def GenericErrorPrefix : String :=
  "There was a problem completing your request. Please contact your operations team providing the following information:"

/-- The struct `DisplayableError`: a user-facing and an operator-facing error. -/
structure DisplayableError where
  errorForCFUser : Option GoError
  errorForOperator : Option GoError
deriving DecidableEq, Repr

def NilError : DisplayableError := ⟨none, none⟩

def DisplayableError.ErrorForCFUser (e : DisplayableError) : Option GoError :=
  e.errorForCFUser

/-- `fmt.Sprintf("error: %s. error for user: %s.", e.errorForOperator, e.errorForCFUser)` -/
def DisplayableError.Error (e : DisplayableError) : String :=
  "error: " ++ fmtS e.errorForOperator ++ ". error for user: " ++ fmtS e.errorForCFUser ++ "."

def DisplayableError.Occurred (e : DisplayableError) : Bool :=
  e.errorForCFUser != none && e.errorForOperator != none

def NewDisplayableError (errorForCFUser errForOperator : Option GoError) : DisplayableError :=
  ⟨errorForCFUser, errForOperator⟩

/-- The message assembled by `NewGenericError`: the formatted head, then the two
conditional `message += ...` steps in source order. -/
def genericMessage (ctx : Context) : String :=
  let message :=
    GenericErrorPrefix ++ " service: " ++ ctx.serviceName ++ ", service-instance-guid: "
      ++ ctx.instanceID ++ ", broker-request-id: " ++ ctx.reqID
  let message :=
    if ctx.boshTaskID ≠ 0 then message ++ (", task-id: " ++ fmt.formatInt ctx.boshTaskID)
    else message
  let message :=
    if ctx.operation ≠ "" then message ++ (", operation: " ++ ctx.operation)
    else message
  message

def NewGenericError (ctx : Context) (err : Option GoError) : DisplayableError :=
  { errorForCFUser := some (errors.New (genericMessage ctx)),
    errorForOperator := err }

/-- The three error values of the external package `brokerapi` that `adapterToAPIError`
returns; the package is a library dependency, so its values are parameters. -/
structure BrokerAPIErrors where
  ErrBindingAlreadyExists : GoError
  ErrBindingDoesNotExist : GoError
  ErrAppGuidNotProvided : GoError

/-- The function `adapterToAPIError`: the nil test, then the type switch. -/
def adapterToAPIError (api : BrokerAPIErrors) (ctx : Context) (err : Option GoError) :
    Option GoError :=
  match err with
  | none => none
  | some e =>
    match e.type with
    | ErrorType.BindingAlreadyExistsError => some api.ErrBindingAlreadyExists
    | ErrorType.BindingNotFoundError => some api.ErrBindingDoesNotExist
    | ErrorType.AppGuidNotProvidedError => some api.ErrAppGuidNotProvided
    | ErrorType.UnknownFailureError =>
      let err := if e.Error = "" then (NewGenericError ctx (some e)).ErrorForCFUser else some e
      err
    | _ => (NewGenericError ctx (some e)).ErrorForCFUser

end broker

namespace strings

/-- Go `strings.Split(s, sep)` for a one-character separator, on character lists. -/
def Split (sep : Char) : List Char → List (List Char)
  | [] => [[]]
  | c :: cs =>
    if c = sep then [] :: Split sep cs
    else
      match Split sep cs with
      | [] => [[c]]
      | p :: ps => (c :: p) :: ps

/-- Go `strings.SplitN(s, sep, n)` for a one-character separator and `n ≥ 0`: at most
`n` pieces, the last one being the unsplit remainder. -/
def SplitN (sep : Char) : Nat → List Char → List (List Char)
  | 0, _ => []
  | 1, s => [s]
  | _ + 2, [] => [[]]
  | n + 2, c :: cs =>
    if c = sep then [] :: SplitN sep (n + 1) cs
    else
      match SplitN sep (n + 2) cs with
      | [] => [[c]]
      | p :: ps => (c :: p) :: ps

end strings

namespace strconv

/-- Value of a decimal digit. -/
def digit (c : Char) : Option Nat :=
  if 48 ≤ c.toNat ∧ c.toNat ≤ 57 then some (c.toNat - 48) else none

/-- Reads a run of decimal digits, most significant first, onto the accumulator. -/
def digits : Nat → List Char → Option Nat
  | acc, [] => some acc
  | acc, c :: cs =>
    match digit c with
    | none => none
    | some d => digits (acc * 10 + d) cs

/-- Go `strconv.ParseInt(s, 10, 64)`: an optional sign and a non-empty run of decimal
digits whose value fits a signed 64-bit integer; `none` is the error result. -/
def ParseInt (s : List Char) : Option Int :=
  match s with
  | [] => none
  | '+' :: r =>
    if r = [] then none
    else match digits 0 r with
      | none => none
      | some n => if n < 2 ^ 63 then some (Int.ofNat n) else none
  | '-' :: r =>
    if r = [] then none
    else match digits 0 r with
      | none => none
      | some n => if n ≤ 2 ^ 63 then some (-(Int.ofNat n)) else none
  | _ =>
    match digits 0 s with
    | none => none
    | some n => if n < 2 ^ 63 then some (Int.ofNat n) else none

/-- Go `strconv.Atoi(s)` on a 64-bit platform. -/
def Atoi (s : List Char) : Option Int := ParseInt s

end strconv

/-! ## The semantic-version library used by the CF API check

`checkCFAPIVersion` calls `semver.NewVersion`, `semver.New` and `Version.LessThan` of the
library `github.com/coreos/go-semver`. The part of the library these calls reach is
embedded here: parsing of the dotted triple with its pre-release and build-metadata
suffixes, and precedence comparison. -/

namespace semver

/-- The struct `semver.Version`. -/
structure Version where
  Major : Int
  Minor : Int
  Patch : Int
  PreRelease : String
  Metadata : String
deriving DecidableEq, Repr

/-- The helper `splitOff(&input, delim)`: when the delimiter occurs, the input keeps what
precedes its first occurrence and the rest is returned; otherwise the input is unchanged
and the result is empty. Returns the new input and the value. -/
def splitOff (input : List Char) (delim : Char) : List Char × List Char :=
  match strings.SplitN delim 2 input with
  | [a, b] => (a, b)
  | _ => (input, [])

/-- The method `Version.Set` behind `NewVersion`: `none` is its error result. -/
def NewVersion (version : String) : Option Version :=
  let (version, metadata) := splitOff version.data '+'
  let (version, preRelease) := splitOff version '-'
  match strings.SplitN '.' 3 version with
  | [a, b, c] =>
    match strconv.ParseInt a with
    | none => none
    | some major =>
      match strconv.ParseInt b with
      | none => none
      | some minor =>
        match strconv.ParseInt c with
        | none => none
        | some patch =>
          some { Major := major, Minor := minor, Patch := patch,
                 PreRelease := String.mk preRelease, Metadata := String.mk metadata }
  | _ => none

/-- The function `semver.New`, which panics where `NewVersion` fails; the zero version
stands for the panic. Its only call site passes the literal `2.57.0`. -/
def New (version : String) : Version :=
  match NewVersion version with
  | some v => v
  | none => ⟨0, 0, 0, "", ""⟩

def Version.Slice (v : Version) : List Int := [v.Major, v.Minor, v.Patch]

/-- The function `recursiveCompare` on the numeric slices. -/
def recursiveCompare : List Int → List Int → Int
  | [], _ => 0
  | _ :: _, [] => 0 -- out-of-range index in the library; both slices always have length 3
  | a :: versionA, b :: versionB =>
    if a > b then 1
    else if a < b then -1
    else recursiveCompare versionA versionB

/-- The function `recursivePreReleaseCompare` on the dot-separated identifiers. -/
def recursivePreReleaseCompare : List (List Char) → List (List Char) → Int
  | [], versionB => if versionB.length > 0 then -1 else 0
  | _ :: _, [] => 1
  | a :: versionA, b :: versionB =>
    let aInt := (strconv.Atoi a).isSome
    let bInt := (strconv.Atoi b).isSome
    if aInt && !bInt then -1
    else if !aInt && bInt then 1
    else if aInt && bInt && (strconv.Atoi a).getD 0 > (strconv.Atoi b).getD 0 then 1
    else if aInt && bInt && (strconv.Atoi a).getD 0 < (strconv.Atoi b).getD 0 then -1
    else if a > b then 1
    else if a < b then -1
    else recursivePreReleaseCompare versionA versionB

/-- The function `preReleaseCompare`: of two versions with equal numbers, the one without
a pre-release tag is the greater. -/
def preReleaseCompare (versionA versionB : Version) : Int :=
  let a := versionA.PreRelease
  let b := versionB.PreRelease
  if a = "" ∧ b ≠ "" then 1
  else if b = "" ∧ a ≠ "" then -1
  else recursivePreReleaseCompare (strings.Split '.' a.data) (strings.Split '.' b.data)

def Version.Compare (v versionB : Version) : Int :=
  let cmp := recursiveCompare v.Slice versionB.Slice
  if cmp ≠ 0 then cmp else preReleaseCompare v versionB

def Version.LessThan (v versionB : Version) : Bool :=
  decide (v.Compare versionB < 0)

end semver

/-! ## Startup checks -/

namespace broker

/-- Modelled from the spec: package `config` is not among the sources. A plan is its
identifier and its optional lifecycle errand names (post-deploy, pre-delete). -/
structure Plan where
  ID : String
  PostDeployErrand : Option String
  PreDeleteErrand : Option String
deriving DecidableEq, Repr

/-- Modelled from the spec: package `config` is not among the sources. `Plans.FindByID`
looks the identifier up among the configured plans and reports whether it was found. -/
def Plans.FindByID (plans : List Plan) (id : String) : Option Plan :=
  plans.find? (fun plan => plan.ID == id)

/-- Modelled from the spec: package `config` is not among the sources. A service offering
is its identifier and its configured plan catalog. -/
structure ServiceOffering where
  ID : String
  Plans : List Plan
deriving DecidableEq, Repr

/-- Modelled from the spec: package `config` is not among the sources.
`HasLifecycleErrands` holds when any configured plan declares a lifecycle errand. -/
def ServiceOffering.HasLifecycleErrands (s : ServiceOffering) : Bool :=
  s.Plans.any (fun plan => plan.PostDeployErrand.isSome || plan.PreDeleteErrand.isSome)

/-- Modelled from the spec: package `boshdirector` is not among the sources. A director
version is what the startup check asks of it: whether it supports the on-demand-broker
protocol, and whether it supports lifecycle errands. -/
structure DirectorVersion where
  SupportsODB : Bool
  SupportsLifecycleErrands : Bool
deriving DecidableEq, Repr

/-- The registry client as the startup checks use it: the result pair of each call.
The count map is listed in the order the `range` loop visits its entries. -/
structure CloudFoundryClient where
  GetAPIVersion : String × Option GoError
  CountInstancesOfServiceOffering : String → List (String × Int) × Option GoError

/-- The director client as the startup checks use it. -/
structure BoshClient where
  GetDirectorVersion : DirectorVersion × Option GoError

/-- The fields of `Broker` the startup checks read. -/
structure Broker where
  cfClient : CloudFoundryClient
  boshClient : BoshClient
  serviceOffering : ServiceOffering

/-- A call made on one of the two remote clients. -/
inductive Call where
  | GetAPIVersion
  | GetDirectorVersion
  | CountInstancesOfServiceOffering (serviceOfferingID : String)
deriving DecidableEq, Repr

/-- What a check leaves behind: the error it returns and the remote calls it made,
in order. -/
structure Outcome where
  err : Option GoError
  calls : List Call
deriving DecidableEq, Repr

/-- The `range` loop of `verifyExistingInstancePlanIDsUnchanged` over the entries of the
count map, in visiting order. -/
def verifyPlanIDsLoop (plans : List Plan) : List (String × Int) → Option GoError
  | [] => none
  | (planID, count) :: rest =>
    let found := (Plans.FindByID plans planID).isSome
    if !found && decide (count > 0) then
      some (errors.New "You cannot change the plan_id of a plan that has existing service instances")
    else verifyPlanIDsLoop plans rest

def Broker.verifyExistingInstancePlanIDsUnchanged (b : Broker) : Outcome :=
  let (instanceCountByPlanID, err) :=
    b.cfClient.CountInstancesOfServiceOffering b.serviceOffering.ID
  let calls := [Call.CountInstancesOfServiceOffering b.serviceOffering.ID]
  match err with
  | some e => ⟨some e, calls⟩
  | none => ⟨verifyPlanIDsLoop b.serviceOffering.Plans instanceCountByPlanID, calls⟩

def Broker.checkCFAPIVersion (b : Broker) : Outcome :=
  let (rawCFAPIVersion, err) := b.cfClient.GetAPIVersion
  let calls := [Call.GetAPIVersion]
  match err with
  | some e => ⟨some (errors.New (e.Error ++ ". ODB requires CF v238+.")), calls⟩
  | none =>
    match semver.NewVersion rawCFAPIVersion with
    | none =>
      ⟨some (errors.New ("Cloud Foundry API version couldn't be parsed. Expected a semver, got: "
        ++ rawCFAPIVersion ++ ".")), calls⟩
    | some version =>
      if version.LessThan (semver.New "2.57.0") then
        ⟨some (errors.New "Cloud Foundry API version is insufficient, ODB requires CF v238+."),
          calls⟩
      else ⟨none, calls⟩

/-- The method `checkBoshDirectorVersion`; the package constant
`boshdirector.MinimumMajorSemverDirectorVersionForLifecycleErrands` is a parameter. -/
def Broker.checkBoshDirectorVersion (b : Broker)
    (MinimumMajorSemverDirectorVersionForLifecycleErrands : Int) : Outcome :=
  let (directorVersion, err) := b.boshClient.GetDirectorVersion
  let calls := [Call.GetDirectorVersion]
  match err with
  | some e => ⟨some (errors.New (e.Error ++ ". ODB requires BOSH v257+.")), calls⟩
  | none =>
    if !directorVersion.SupportsODB then
      ⟨some (errors.New "API version is insufficient, ODB requires BOSH v257+."), calls⟩
    else if b.serviceOffering.HasLifecycleErrands && !directorVersion.SupportsLifecycleErrands then
      let errMsg :=
        "API version is insufficient, one or more plans are configured with lifecycle_errands which require BOSH v"
          ++ fmt.formatInt MinimumMajorSemverDirectorVersionForLifecycleErrands ++ "+."
      ⟨some (errors.New errMsg), calls⟩
    else ⟨none, calls⟩

end broker

/-! ## Further error constructors and the composed startup check -/

namespace strings

/-- Go `strings.Join(elems, sep)`. -/
def Join : List String → String → String
  | [], _ => ""
  | [a], _ => a
  | a :: b :: rest, sep => a ++ sep ++ Join (b :: rest) sep

end strings

namespace broker

/-- The function `NewOperationInProgressError`: the struct `OperationInProgressError`
embeds the error, so the value has that dynamic type and the promoted method `Error()`
of the embedded error. The argument is a non-nil error value; on a nil one neither
`e.Error()` nor the promoted method can be called. -/
def NewOperationInProgressError (e : GoError) : GoError :=
  ⟨ErrorType.OperationInProgressError, e.Error⟩

/-- The function `NewBoshRequestError`: the user-facing error is
`fmt.Errorf("Currently unable to %s service instance, please try again later", action)`. -/
def NewBoshRequestError (action : String) (requestError : Option GoError) : DisplayableError :=
  { errorForCFUser :=
      some (errors.New
        ("Currently unable to " ++ action ++ " service instance, please try again later")),
    errorForOperator := requestError }

/-- The method `checkAPIVersions`: both checks run, their messages are collected in
order, and a non-empty collection is joined with a single space. -/
def Broker.checkAPIVersions (b : Broker)
    (MinimumMajorSemverDirectorVersionForLifecycleErrands : Int) : Outcome :=
  let apiErrorMessages : List String := []
  let cfCheck := b.checkCFAPIVersion
  let apiErrorMessages :=
    match cfCheck.err with
    | some err => apiErrorMessages ++ ["CF API error: " ++ err.Error]
    | none => apiErrorMessages
  let boshCheck := b.checkBoshDirectorVersion MinimumMajorSemverDirectorVersionForLifecycleErrands
  let apiErrorMessages :=
    match boshCheck.err with
    | some err => apiErrorMessages ++ ["BOSH Director error: " ++ err.Error]
    | none => apiErrorMessages
  if apiErrorMessages.length > 0 then
    ⟨some (errors.New (strings.Join apiErrorMessages " ")), cfCheck.calls ++ boshCheck.calls⟩
  else ⟨none, cfCheck.calls ++ boshCheck.calls⟩

/-- The method `startupChecks`: the API version checks, then, only when they pass, the
plan-id check. -/
def Broker.startupChecks (b : Broker)
    (MinimumMajorSemverDirectorVersionForLifecycleErrands : Int) : Outcome :=
  let apiCheck := b.checkAPIVersions MinimumMajorSemverDirectorVersionForLifecycleErrands
  match apiCheck.err with
  | some err => ⟨some err, apiCheck.calls⟩
  | none =>
    let planCheck := b.verifyExistingInstancePlanIDsUnchanged
    match planCheck.err with
    | some err => ⟨some err, apiCheck.calls ++ planCheck.calls⟩
    | none => ⟨none, apiCheck.calls ++ planCheck.calls⟩

end broker

/-! ## The registry client (package `cf`)

The client itself is not among the sources; its test suite `cf/client_test.go` is. The
definitions below are modelled from the specification of the registry client and agree
with the responses and errors that the test suite expects. -/

namespace strconv

/-- A hexadecimal digit, lower case. -/
def hexDigit (n : Nat) : Char :=
  if n < 10 then Char.ofNat (48 + n) else Char.ofNat (87 + n)

/-- How Go `strconv.Quote` writes one character: the double quote and the backslash get
a backslash in front, the other printable ASCII characters stay, the control characters
are written as their escape sequence. How DEL and the characters outside ASCII are written
follows from the printability table of the Go release in use (raw when the table has the
character printable, an escape sequence otherwise); that rendering is the parameter
`escapeOther`. -/
def quoteChar (escapeOther : Char → List Char) (c : Char) : List Char :=
  if c.toNat = 34 ∨ c.toNat = 92 then [Char.ofNat 92, c]
  else if 32 ≤ c.toNat ∧ c.toNat < 127 then [c]
  else if c.toNat = 7 then [Char.ofNat 92, 'a']
  else if c.toNat = 8 then [Char.ofNat 92, 'b']
  else if c.toNat = 12 then [Char.ofNat 92, 'f']
  else if c.toNat = 10 then [Char.ofNat 92, 'n']
  else if c.toNat = 13 then [Char.ofNat 92, 'r']
  else if c.toNat = 9 then [Char.ofNat 92, 't']
  else if c.toNat = 11 then [Char.ofNat 92, 'v']
  else if c.toNat < 32 then
    [Char.ofNat 92, 'x', hexDigit (c.toNat / 16), hexDigit (c.toNat % 16)]
  else escapeOther c

def quoteChars (escapeOther : Char → List Char) : List Char → List Char
  | [] => []
  | c :: cs => quoteChar escapeOther c ++ quoteChars escapeOther cs

/-- Go `strconv.Quote(s)`, which is what the verb `%q` prints for a string: the escaped
text between double quotes. -/
def Quote (escapeOther : Char → List Char) (s : String) : String :=
  String.mk (Char.ofNat 34 :: (quoteChars escapeOther s.data ++ [Char.ofNat 34]))

end strconv

namespace cf

open broker

/-- An HTTP response of the registry as the client reads it. -/
structure Response where
  StatusCode : Int
  Body : String
deriving DecidableEq, Repr

structure Binding where
  GUID : String
  AppGUID : String
deriving DecidableEq, Repr

structure ServiceKey where
  GUID : String
deriving DecidableEq, Repr

/-- Modelled from the spec: the last-known operation of an instance (type, state). -/
structure LastOperation where
  OperationType : String
  State : String
deriving DecidableEq, Repr

/-- Modelled from the spec: a marketplace-visible service instance as the registry
reports it. -/
structure Instance where
  PlanURL : String
  LastOperation : LastOperation
deriving DecidableEq, Repr

/-- One page of a paginated list: its resources and the next-page pointer, empty on the
last page. -/
structure Page (α : Type) where
  Resources : List α
  NextPath : String

/-- The JSON decoder of the standard library as the client uses it; its results are
parameters. `errorDescription` decodes a body as the registry error object and gives its
description, `none` when the body does not parse; the others decode a success body, or
give the text of the decoding error. -/
structure Decoder where
  errorDescription : String → Option String
  decodeInstance : String → Except String Instance
  decodeBindings : String → Except String (Page Binding)
  decodeServiceKeys : String → Except String (Page ServiceKey)

/-- Modelled from the spec: the registry client is its authentication header builder
(the result pair of `Build`), the registry it talks to (the response to a request, by
method and path) and the decoder. -/
structure Client where
  authHeaderBuilder : String × Option GoError
  server : String → String → Response
  json : Decoder

def ResourceNotFoundErrorType : ErrorType := ErrorType.other "cf.ResourceNotFoundError"
def UnauthorizedErrorType : ErrorType := ErrorType.other "cf.UnauthorizedError"
def ForbiddenErrorType : ErrorType := ErrorType.other "cf.ForbiddenError"
def InvalidResponseErrorType : ErrorType := ErrorType.other "cf.InvalidResponseError"

/-- Modelled from the spec: the human description of an error body, "falling back to the
raw body text if parsing fails". -/
def errorMessage (json : Decoder) (body : String) : String :=
  match json.errorDescription body with
  | some description => description
  | none => body

/-- Modelled from the spec: the generic `UnexpectedStatus` error of a read request,
"carrying the raw body"; the tests of the read requests fix the text around the body,
`Unexpected reponse status 500, "no bindings for you"`. -/
def unexpectedStatus (resp : Response) : GoError :=
  errors.New ("Unexpected reponse status " ++ fmt.formatInt resp.StatusCode ++ ", "
    ++ ("\"" ++ resp.Body ++ "\""))

/-- Modelled from the spec: the generic `UnexpectedStatus` error, for a delete request
(package `cf` is not among the sources). The tests of the delete requests fix how it
carries the body: in quoted form, as the verb `%q` prints it (a 403 with the body
`{"foo":"bar"}` must give a message with `"{\"foo\":\"bar\"}"` in it). -/
def unexpectedDeleteStatus (escapeOther : Char → List Char) (resp : Response) : GoError :=
  errors.New ("Unexpected reponse status " ++ fmt.formatInt resp.StatusCode ++ ", "
    ++ strconv.Quote escapeOther resp.Body)

/-- Modelled from the spec: classification of the response to a read request. A 2xx
response is decoded, a malformed success body being an `InvalidResponse`; "non-2xx
responses are classified by status code into `NotFound`, `Unauthorized`, `Forbidden`
[...] or a generic `UnexpectedStatus`". -/
def readResponse {α : Type} (json : Decoder) (decode : String → Except String α)
    (resp : Response) : Except GoError α :=
  if 200 ≤ resp.StatusCode ∧ resp.StatusCode < 300 then
    match decode resp.Body with
    | Except.ok v => Except.ok v
    | Except.error t =>
      Except.error ⟨InvalidResponseErrorType, "Invalid response body: " ++ t⟩
  else if resp.StatusCode = 404 then
    Except.error ⟨ResourceNotFoundErrorType, errorMessage json resp.Body⟩
  else if resp.StatusCode = 401 then
    Except.error ⟨UnauthorizedErrorType, errorMessage json resp.Body⟩
  else if resp.StatusCode = 403 then
    Except.error ⟨ForbiddenErrorType, errorMessage json resp.Body⟩
  else Except.error (unexpectedStatus resp)

/-- Modelled from the spec: a read request. A failing header builder ends the call with
its error; otherwise the response is classified. -/
def Client.get {α : Type} (c : Client) (decode : String → Except String α) (path : String) :
    Except GoError α :=
  match c.authHeaderBuilder.2 with
  | some err => Except.error err
  | none => readResponse c.json decode (c.server "GET" path)

/-- Modelled from the spec: a delete request. "Delete operations treat `NotFound` as
success (already absent)"; a 2xx response is success; any other status is the
`UnexpectedStatus` error of a delete request. -/
def Client.delete (c : Client) (escapeOther : Char → List Char) (path : String) :
    Option GoError :=
  match c.authHeaderBuilder.2 with
  | some err => some err
  | none =>
    let resp := c.server "DELETE" path
    if 200 ≤ resp.StatusCode ∧ resp.StatusCode < 300 then none
    else if resp.StatusCode = 404 then none
    else some (unexpectedDeleteStatus escapeOther resp)

def Client.GetInstance (c : Client) (serviceInstanceGUID : String) : Except GoError Instance :=
  c.get c.json.decodeInstance ("/v2/service_instances/" ++ serviceInstanceGUID)

def Client.DeleteBinding (c : Client) (escapeOther : Char → List Char) (binding : Binding) :
    Option GoError :=
  c.delete escapeOther
    ("/v2/apps/" ++ binding.AppGUID ++ "/service_bindings/" ++ binding.GUID)

def Client.DeleteServiceKey (c : Client) (escapeOther : Char → List Char)
    (serviceKey : ServiceKey) : Option GoError :=
  c.delete escapeOther ("/v2/service_keys/" ++ serviceKey.GUID)

def Client.DeleteServiceInstance (c : Client) (escapeOther : Char → List Char)
    (instanceGUID : String) : Option GoError :=
  c.delete escapeOther
    ("/v2/service_instances/" ++ instanceGUID ++ "?accepts_incomplete=true")

/-- Modelled from the spec: "every list operation may return a paged result; the client
must transparently follow next-page links until exhausted", and "a failure on any page
aborts the whole call with the page's error, not a partial result". The loop requests
`path`, appends the page, and goes on with its next-page pointer until that is empty.
The first argument bounds the number of requests; `none` means the bound was reached
with pages still left. -/
def Client.listAll {α : Type} (c : Client) (decode : String → Except String (Page α)) :
    Nat → String → List α → Option (Except GoError (List α))
  | 0, path, all => if path = "" then some (Except.ok all) else none
  | fuel + 1, path, all =>
    if path = "" then some (Except.ok all)
    else
      match c.get decode path with
      | Except.error err => some (Except.error err)
      | Except.ok page => Client.listAll c decode fuel page.NextPath (all ++ page.Resources)

def Client.GetBindingsForInstance (c : Client) (fuel : Nat) (serviceInstanceGUID : String) :
    Option (Except GoError (List Binding)) :=
  c.listAll c.json.decodeBindings fuel
    ("/v2/service_instances/" ++ serviceInstanceGUID ++ "/service_bindings") []

def Client.GetServiceKeysForInstance (c : Client) (fuel : Nat) (serviceInstanceGUID : String) :
    Option (Except GoError (List ServiceKey)) :=
  c.listAll c.json.decodeServiceKeys fuel
    ("/v2/service_instances/" ++ serviceInstanceGUID ++ "/service_keys") []

end cf

/-! ## The management API (package `mgmtapi`)

The handlers are not among the sources; their test suite `mgmtapi/api_test.go` is. The
definitions below are modelled from the specification of the management surface and
agree with the responses that the test suite expects. -/

namespace broker

/-- Modelled from the spec: the operation token returned after submitting an
asynchronous action (remote task reference, correlation context id, plan identifier,
operation type, post-deploy errand name). -/
structure OperationData where
  BoshTaskID : Int
  BoshContextID : String
  OperationType : String
  PlanID : String
  PostDeployErrandName : String
deriving DecidableEq, Repr

end broker

namespace mgmtapi

open broker

def DeploymentNotFoundErrorType : ErrorType := ErrorType.other "task.DeploymentNotFoundError"

/-- A metric of the reporting surface; the value is a whole number of instances. -/
structure Metric where
  Key : String
  Value : Int
  Unit : String
deriving DecidableEq, Repr

/-- What a handler writes as response body. `unspecified` is a body that neither the
specification nor the test suite fixes. -/
inductive Body where
  | operationData (data : OperationData)
  | description (message : String)
  | metrics (brokerMetrics : List Metric)
  | unspecified
deriving DecidableEq, Repr

structure HTTPResponse where
  StatusCode : Int
  Body : Body
deriving DecidableEq, Repr

/-- Modelled from the spec: the answer to an upgrade request, from the result pair of
the broker's `Upgrade`: "201/202 on success, 404 on `NotFound`, 409 on
`OperationInProgress` [...], 410 on deployment-not-found [...], 500 otherwise, each with
a JSON body `{"description": <user-safe message>}`". -/
def upgradeInstance (result : OperationData × Option GoError) : HTTPResponse :=
  match result.2 with
  | none => ⟨202, Body.operationData result.1⟩
  | some err =>
    if err.type = cf.ResourceNotFoundErrorType then ⟨404, Body.unspecified⟩
    else if err.type = DeploymentNotFoundErrorType then ⟨410, Body.unspecified⟩
    else if err.type = ErrorType.OperationInProgressError then ⟨409, Body.unspecified⟩
    else ⟨500, Body.description err.Error⟩

/-- Modelled from the spec: the quota of a scope, an optional instance limit. -/
structure Quotas where
  ServiceInstanceLimit : Option Int
deriving DecidableEq, Repr

/-- Modelled from the spec: a configured plan as the metrics endpoint reads it. -/
structure Plan where
  ID : String
  Name : String
  Quotas : Quotas
deriving DecidableEq, Repr

/-- Modelled from the spec: the service offering as the metrics endpoint reads it. -/
structure ServiceOffering where
  Name : String
  Plans : List Plan
  GlobalQuotas : Quotas
deriving DecidableEq, Repr

def ServiceOffering.FindByID (offering : ServiceOffering) (id : String) : Option Plan :=
  offering.Plans.find? (fun plan => plan.ID == id)

/-- Modelled from the spec: the metrics of one count-map entry, "key =
/<namespace>/<offering>/<plan>/total_instances, value = <count>, unit = count" and,
"when a quota is configured, a quota_remaining metric (limit - count [...])", the plan
limit being compared within its own scope, that plan's count. -/
def planMetrics (offering : ServiceOffering) (plan : Plan) (instanceCount : Int) :
    List Metric :=
  let total : Metric :=
    ⟨"/on-demand-broker/" ++ offering.Name ++ "/" ++ plan.Name ++ "/total_instances",
      instanceCount, "count"⟩
  match plan.Quotas.ServiceInstanceLimit with
  | some limit =>
    [total,
      ⟨"/on-demand-broker/" ++ offering.Name ++ "/" ++ plan.Name ++ "/quota_remaining",
        limit - instanceCount, "count"⟩]
  | none => [total]

/-- The loop over the entries of the count map, in visiting order: the metrics gathered
and the running total. The specification fixes the report for plan ids of the catalog
only; `none` is an entry whose plan id is not configured. -/
def countLoop (offering : ServiceOffering) :
    List (String × Int) → Option (List Metric × Int)
  | [] => some ([], 0)
  | (planID, instanceCount) :: rest =>
    match offering.FindByID planID with
    | none => none
    | some plan =>
      match countLoop offering rest with
      | none => none
      | some (brokerMetrics, totalInstances) =>
        some (planMetrics offering plan instanceCount ++ brokerMetrics,
          instanceCount + totalInstances)

/-- Modelled from the spec: the aggregate metric and, when a global quota is configured,
the global `quota_remaining`, the global limit compared with the aggregate. -/
def globalMetrics (offering : ServiceOffering) (totalInstances : Int) : List Metric :=
  let total : Metric :=
    ⟨"/on-demand-broker/" ++ offering.Name ++ "/total_instances", totalInstances, "count"⟩
  match offering.GlobalQuotas.ServiceInstanceLimit with
  | some limit =>
    [total,
      ⟨"/on-demand-broker/" ++ offering.Name ++ "/quota_remaining",
        limit - totalInstances, "count"⟩]
  | none => [total]

/-- Modelled from the spec: the answer of the metrics endpoint, from the result pair of
the broker's `CountInstancesOfPlans`. A failing count is answered 500, an empty count map
503, and otherwise 200 with the metrics. `none` is a count map with a plan id that is not
configured, which the specification does not cover. -/
def getMetrics (offering : ServiceOffering) (result : List (String × Int) × Option GoError) :
    Option HTTPResponse :=
  match result.2 with
  | some _ => some ⟨500, Body.unspecified⟩
  | none =>
    if result.1.length = 0 then some ⟨503, Body.unspecified⟩
    else
      match countLoop offering result.1 with
      | none => none
      | some (brokerMetrics, totalInstances) =>
        some ⟨200, Body.metrics (brokerMetrics ++ globalMetrics offering totalInstances)⟩

end mgmtapi

namespace cf

open broker

/-- The error component of a Go result pair `(value, err)`: nil on success. -/
def errorOf {α : Type} : Except GoError α → Option GoError
  | Except.ok _ => none
  | Except.error err => some err

/-- A sequence of pages linked by next-page pointers, as met from `path` on: each page is
the registry's decoded answer to the request for the current path, the next request goes
to its next-page pointer, and the pointer of the last page is empty. -/
def Client.Linked {α : Type} (c : Client) (decode : String → Except String (Page α)) :
    String → List (Page α) → Prop
  | path, [] => path = ""
  | path, page :: rest =>
    path ≠ "" ∧ c.get decode path = Except.ok page ∧ Client.Linked c decode page.NextPath rest

/-- A sequence of linked pages after which the request for the next page fails with
error `err`. -/
def Client.LinkedUntilFailure {α : Type} (c : Client)
    (decode : String → Except String (Page α)) (err : GoError) :
    String → List (Page α) → Prop
  | path, [] => path ≠ "" ∧ c.get decode path = Except.error err
  | path, page :: rest =>
    path ≠ "" ∧ c.get decode path = Except.ok page ∧
      Client.LinkedUntilFailure c decode err page.NextPath rest

end cf

/-! ## The update operation and the quota validator

Neither is among the sources; the update operation is known through
`integration_new_tests/update_test.go`. Both are modelled from the specification. -/

namespace broker

def OperationInProgressMessage : String :=
  "An operation is in progress for your service instance. Please try again later."

/-- Modelled from the spec: the operation type of an update token. -/
def OperationTypeUpdate : String := "update"

/-- Modelled from the spec: the update of an instance to a configured plan. "If the
instance already has a non-terminal operation, fails with `OperationInProgress` [...]
without side effects"; otherwise the action is submitted to the director, "if the target
plan declares a post-deploy errand, [...] with a fresh correlation context id", else with
none; a director error is passed on unchanged; on success the token holds the director's
task reference, the correlation context id and the errand name. `newContextID` is the
identifier the generator hands out, `submit` the director's answer (task id, error) to a
submission with a given context id. -/
def Update (plan : Plan) (operationInProgress : Bool) (newContextID : String)
    (submit : String → Int × Option GoError) : OperationData × Option GoError :=
  if operationInProgress then
    (⟨0, "", "", "", ""⟩, some (NewOperationInProgressError (errors.New OperationInProgressMessage)))
  else
    let boshContextID := if plan.PostDeployErrand.isSome then newContextID else ""
    let (boshTaskID, err) := submit boshContextID
    match err with
    | some e => (⟨0, "", "", "", ""⟩, some e)
    | none =>
      (⟨boshTaskID, boshContextID, OperationTypeUpdate, "", plan.PostDeployErrand.getD ""⟩, none)

end broker

namespace QuotaValidator

/-- Modelled from the spec: one quota scope. "No limit configured means unlimited for
that scope"; with a limit, a provision is rejected if the limit "would be exceeded by one
more instance". -/
def allows (count : Int) (limit : Option Int) : Bool :=
  match limit with
  | none => true
  | some l => decide (count + 1 ≤ l)

/-- The count of one plan in the per-plan count map, zero when the plan has no entry. -/
def planCount (counts : List (String × Int)) (planID : String) : Int :=
  (counts.lookup planID).getD 0

/-- The sum of the counts across all plans. -/
def totalCount (counts : List (String × Int)) : Int :=
  (counts.map Prod.snd).sum

/-- Modelled from the spec: "given a per-plan count map and configured
`{planLimit, globalLimit}`, returns whether a new instance of a given plan may be
provisioned. Global limit is evaluated against the sum across all plans; per-plan limit
against that plan's count alone; a provision is rejected if either configured limit
(when present) would be exceeded". -/
def canProvision (counts : List (String × Int)) (planID : String)
    (planLimit globalLimit : Option Int) : Bool :=
  allows (planCount counts planID) planLimit && allows (totalCount counts) globalLimit

end QuotaValidator

/-! ## The generated fake of the purger's registry client

`purger/fakes/fake_cloud_foundry_client.go`, with the mutexes left out: the calls are
taken one after the other. -/

namespace fakes

open broker

/-- A `*log.Logger` argument, by identity. -/
abbrev Logger := Nat

/-- One element of an `[]interface{}` argument list. -/
inductive Arg where
  | str (s : String)
  | logger (l : Logger)
deriving DecidableEq, Repr

/-- The struct `FakeCloudFoundryClient`. A nil stub is `none`; the map of per-call
results lists its entries, at most one per key, and a nil map is the empty list; so is
the nil map of invocations. -/
structure FakeCloudFoundryClient where
  DisableServiceAccessStub : Option (String → Logger → Option GoError)
  disableServiceAccessArgsForCall : List (String × Logger)
  disableServiceAccessReturns : Option GoError
  disableServiceAccessReturnsOnCall : List (Int × Option GoError)
  invocations : List (String × List (List Arg))

/-- The zero value `new(FakeCloudFoundryClient)`. -/
def FakeCloudFoundryClient.new : FakeCloudFoundryClient :=
  ⟨none, [], none, [], []⟩

/-- The map assignment `m[key] = value`. -/
def mapSet {β : Type} (m : List (Int × β)) (key : Int) (value : β) : List (Int × β) :=
  (key, value) :: m.filter (fun entry => entry.1 != key)

/-- The method `recordInvocation`: the arguments are appended to the list kept under
the key, which is created when missing. -/
def recordInvocation (invocations : List (String × List (List Arg))) (key : String)
    (args : List Arg) : List (String × List (List Arg)) :=
  match invocations.lookup key with
  | none => invocations ++ [(key, [args])]
  | some _ =>
    invocations.map (fun entry => if entry.1 = key then (entry.1, entry.2 ++ [args]) else entry)

/-- The method `DisableServiceAccess`: the new state of the fake and the returned
error. -/
def FakeCloudFoundryClient.DisableServiceAccess (fake : FakeCloudFoundryClient)
    (serviceOfferingID : String) (logger : Logger) : FakeCloudFoundryClient × Option GoError :=
  let specific :=
    fake.disableServiceAccessReturnsOnCall.lookup
      (Int.ofNat fake.disableServiceAccessArgsForCall.length)
  let fake1 : FakeCloudFoundryClient :=
    { fake with
      disableServiceAccessArgsForCall :=
        fake.disableServiceAccessArgsForCall ++ [(serviceOfferingID, logger)],
      invocations :=
        recordInvocation fake.invocations "DisableServiceAccess"
          [Arg.str serviceOfferingID, Arg.logger logger] }
  match fake1.DisableServiceAccessStub with
  | some stub => (fake1, stub serviceOfferingID logger)
  | none =>
    match specific with
    | some ret => (fake1, ret)
    | none => (fake1, fake1.disableServiceAccessReturns)

def FakeCloudFoundryClient.DisableServiceAccessCallCount (fake : FakeCloudFoundryClient) : Int :=
  Int.ofNat fake.disableServiceAccessArgsForCall.length

/-- The method `DisableServiceAccessArgsForCall`; `none` is the index-out-of-range
panic. -/
def FakeCloudFoundryClient.DisableServiceAccessArgsForCall (fake : FakeCloudFoundryClient)
    (i : Int) : Option (String × Logger) :=
  if i < 0 then none else fake.disableServiceAccessArgsForCall.get? i.toNat

def FakeCloudFoundryClient.DisableServiceAccessReturns (fake : FakeCloudFoundryClient)
    (result1 : Option GoError) : FakeCloudFoundryClient :=
  { fake with DisableServiceAccessStub := none, disableServiceAccessReturns := result1 }

def FakeCloudFoundryClient.DisableServiceAccessReturnsOnCall (fake : FakeCloudFoundryClient)
    (i : Int) (result1 : Option GoError) : FakeCloudFoundryClient :=
  { fake with
    DisableServiceAccessStub := none,
    disableServiceAccessReturnsOnCall := mapSet fake.disableServiceAccessReturnsOnCall i result1 }

def FakeCloudFoundryClient.Invocations (fake : FakeCloudFoundryClient) :
    List (String × List (List Arg)) :=
  fake.invocations

/-- A run of calls to `DisableServiceAccess`, one after the other: the final state. -/
def FakeCloudFoundryClient.callAll (fake : FakeCloudFoundryClient) :
    List (String × Logger) → FakeCloudFoundryClient
  | [] => fake
  | (serviceOfferingID, logger) :: rest =>
    FakeCloudFoundryClient.callAll (fake.DisableServiceAccess serviceOfferingID logger).1 rest

end fakes

/-! ## Properties of the error taxonomy -/

namespace strings

theorem contains_refl (s : String) : Contains s s := List.infix_refl _

theorem contains_append_left {a x : String} (b : String) (h : Contains a x) :
    Contains (a ++ b) x := by
  unfold Contains at *
  rw [String.data_append]
  exact h.trans (List.infix_append' [] a.data b.data)

theorem contains_append_right {b x : String} (a : String) (h : Contains b x) :
    Contains (a ++ b) x := by
  unfold Contains at *
  rw [String.data_append]
  exact h.trans (List.suffix_append a.data b.data).isInfix

end strings

namespace broker

open strings

theorem string_append_assoc (a b c : String) : a ++ b ++ c = a ++ (b ++ c) := by
  apply String.ext
  simp [String.data_append, List.append_assoc]

theorem string_append_empty (a : String) : a ++ "" = a := by
  apply String.ext
  simp [String.data_append]

/-- The message of `NewGenericError` as head, task-id part and operation part. -/
theorem genericMessage_eq (ctx : Context) :
    genericMessage ctx =
      GenericErrorPrefix ++ " service: " ++ ctx.serviceName ++ ", service-instance-guid: "
        ++ ctx.instanceID ++ ", broker-request-id: " ++ ctx.reqID
        ++ (if ctx.boshTaskID ≠ 0 then ", task-id: " ++ fmt.formatInt ctx.boshTaskID else "")
        ++ (if ctx.operation ≠ "" then ", operation: " ++ ctx.operation else "") := by
  unfold genericMessage
  by_cases h1 : ctx.boshTaskID = 0 <;> by_cases h2 : ctx.operation = "" <;>
    simp [h1, h2, string_append_empty]

/-- C1: the user-facing half of a Generic error is a function of the context alone: for
every context and any two errors, `NewGenericError` returns the same user-facing error,
hence the same user message. -/
theorem generic_user_error_independent_of_operator_error (ctx : Context)
    (e1 e2 : Option GoError) :
    (NewGenericError ctx e1).ErrorForCFUser = (NewGenericError ctx e2).ErrorForCFUser ∧
    fmtS (NewGenericError ctx e1).ErrorForCFUser = fmtS (NewGenericError ctx e2).ErrorForCFUser :=
  ⟨rfl, rfl⟩

/-- C2: the user-facing message of `NewGenericError ctx err` is the generic prefix, then
the service name, instance id and request id, then the task id exactly when it is not 0,
then the operation exactly when it is not empty, task id before operation. -/
theorem generic_user_message_format (ctx : Context) (err : Option GoError) :
    (NewGenericError ctx err).ErrorForCFUser =
      some (errors.New
        (GenericErrorPrefix ++ " service: " ++ ctx.serviceName ++ ", service-instance-guid: "
          ++ ctx.instanceID ++ ", broker-request-id: " ++ ctx.reqID
          ++ (if ctx.boshTaskID ≠ 0 then ", task-id: " ++ fmt.formatInt ctx.boshTaskID else "")
          ++ (if ctx.operation ≠ "" then ", operation: " ++ ctx.operation else ""))) := by
  unfold NewGenericError DisplayableError.ErrorForCFUser
  rw [genericMessage_eq]

/-- C3 as stated fails: for the context of service `redis` and the error `boom`, the text
of the operator-facing half of the Generic error is `boom` and contains neither the
service name nor any other part of the request context. -/
theorem generic_operator_half_lacks_context :
    fmtS (NewGenericError ⟨"redis", "guid-1", "req-7", "bind", 42⟩
      (some (errors.New "boom"))).errorForOperator = "boom" ∧
    ¬ Contains (fmtS (NewGenericError ⟨"redis", "guid-1", "req-7", "bind", 42⟩
      (some (errors.New "boom"))).errorForOperator) "redis" ∧
    ¬ Contains (fmtS (NewGenericError ⟨"redis", "guid-1", "req-7", "bind", 42⟩
      (some (errors.New "boom"))).errorForOperator) "guid-1" ∧
    ¬ Contains (fmtS (NewGenericError ⟨"redis", "guid-1", "req-7", "bind", 42⟩
      (some (errors.New "boom"))).errorForOperator) "req-7" ∧
    ¬ Contains (fmtS (NewGenericError ⟨"redis", "guid-1", "req-7", "bind", 42⟩
      (some (errors.New "boom"))).errorForOperator) "bind" ∧
    ¬ Contains (fmtS (NewGenericError ⟨"redis", "guid-1", "req-7", "bind", 42⟩
      (some (errors.New "boom"))).errorForOperator) (fmt.formatInt 42) := by
  decide

theorem genericMessage_contains_serviceName (ctx : Context) :
    Contains (genericMessage ctx) ctx.serviceName := by
  rw [genericMessage_eq]
  exact contains_append_left _ (contains_append_left _ (contains_append_left _
    (contains_append_left _ (contains_append_left _ (contains_append_left _
      (contains_append_right _ (contains_refl _)))))))

theorem genericMessage_contains_instanceID (ctx : Context) :
    Contains (genericMessage ctx) ctx.instanceID := by
  rw [genericMessage_eq]
  exact contains_append_left _ (contains_append_left _ (contains_append_left _
    (contains_append_left _ (contains_append_right _ (contains_refl _)))))

theorem genericMessage_contains_reqID (ctx : Context) :
    Contains (genericMessage ctx) ctx.reqID := by
  rw [genericMessage_eq]
  exact contains_append_left _ (contains_append_left _
    (contains_append_right _ (contains_refl _)))

theorem genericMessage_contains_operation (ctx : Context) :
    Contains (genericMessage ctx) ctx.operation := by
  rw [genericMessage_eq]
  by_cases h2 : ctx.operation = ""
  · rw [h2]
    exact ⟨[], _, rfl⟩
  · rw [if_pos h2]
    exact contains_append_right _ (contains_append_right _ (contains_refl _))

theorem genericMessage_contains_taskID (ctx : Context) (h : ctx.boshTaskID ≠ 0) :
    Contains (genericMessage ctx) (fmt.formatInt ctx.boshTaskID) := by
  rw [genericMessage_eq, if_pos h]
  exact contains_append_left _ (contains_append_right _
    (contains_append_right _ (contains_refl _)))

/-- C3, amended: the operator-facing half of `NewGenericError ctx err` is `err` itself,
unchanged. The request context is embedded in the user-facing message, and through it in
the combined rendering `Error()`: both contain the service name, the instance id, the
request id, the operation name and, when it is not 0, the task id. -/
theorem generic_error_carries_context (ctx : Context) (err : Option GoError) :
    (NewGenericError ctx err).errorForOperator = err ∧
    (∀ part ∈ [ctx.serviceName, ctx.instanceID, ctx.reqID, ctx.operation],
      Contains (fmtS (NewGenericError ctx err).ErrorForCFUser) part ∧
      Contains (NewGenericError ctx err).Error part) ∧
    (ctx.boshTaskID ≠ 0 →
      Contains (fmtS (NewGenericError ctx err).ErrorForCFUser) (fmt.formatInt ctx.boshTaskID) ∧
      Contains (NewGenericError ctx err).Error (fmt.formatInt ctx.boshTaskID)) := by
  have lift : ∀ part, Contains (genericMessage ctx) part →
      Contains (fmtS (NewGenericError ctx err).ErrorForCFUser) part ∧
      Contains (NewGenericError ctx err).Error part := by
    intro part h
    refine ⟨h, ?_⟩
    unfold DisplayableError.Error
    exact contains_append_left _ (contains_append_right _ h)
  refine ⟨rfl, ?_, fun h => lift _ (genericMessage_contains_taskID ctx h)⟩
  intro part hp
  simp only [List.mem_cons, List.mem_singleton, List.not_mem_nil, or_false] at hp
  rcases hp with rfl | rfl | rfl | rfl
  · exact lift _ (genericMessage_contains_serviceName ctx)
  · exact lift _ (genericMessage_contains_instanceID ctx)
  · exact lift _ (genericMessage_contains_reqID ctx)
  · exact lift _ (genericMessage_contains_operation ctx)

/-- Witness for C3 amended, at a context with a non-zero task id. -/
theorem generic_error_carries_context_witness :
    (NewGenericError ⟨"redis", "guid-1", "req-7", "bind", 42⟩
      (some (errors.New "boom"))).errorForOperator = some (errors.New "boom") ∧
    Contains (NewGenericError ⟨"redis", "guid-1", "req-7", "bind", 42⟩
      (some (errors.New "boom"))).Error "redis" ∧
    Contains (NewGenericError ⟨"redis", "guid-1", "req-7", "bind", 42⟩
      (some (errors.New "boom"))).Error (fmt.formatInt 42) :=
  have h := generic_error_carries_context ⟨"redis", "guid-1", "req-7", "bind", 42⟩
    (some (errors.New "boom"))
  ⟨h.1, (h.2.1 "redis" (by simp)).2, (h.2.2 (by decide)).2⟩

/-- C4: for non-nil errors `u` and `o`, `NewDisplayableError(u, o).Error()` is
`error: ` + `o.Error()` + `. error for user: ` + `u.Error()` + `.`, and the rendering of
`NewGenericError(ctx, err)` contains `err.Error()` for every non-nil `err`. -/
theorem displayable_error_keeps_operator_detail (u o : GoError) :
    (NewDisplayableError (some u) (some o)).Error =
      "error: " ++ o.Error ++ ". error for user: " ++ u.Error ++ "." ∧
    ∀ (ctx : Context) (err : GoError),
      Contains (NewGenericError ctx (some err)).Error err.Error := by
  refine ⟨rfl, fun ctx err => ?_⟩
  unfold DisplayableError.Error
  exact contains_append_left _ (contains_append_left _ (contains_append_left _
    (contains_append_right _ (contains_refl _))))

/-- C5: whatever the context and the message, `adapterToAPIError` maps every
`BindingAlreadyExistsError` to `brokerapi.ErrBindingAlreadyExists`, every
`BindingNotFoundError` to `brokerapi.ErrBindingDoesNotExist` and every
`AppGuidNotProvidedError` to `brokerapi.ErrAppGuidNotProvided`. -/
theorem adapterToAPIError_classifies_known_failures (api : BrokerAPIErrors) (ctx : Context)
    (msg : String) :
    adapterToAPIError api ctx (some ⟨ErrorType.BindingAlreadyExistsError, msg⟩)
      = some api.ErrBindingAlreadyExists ∧
    adapterToAPIError api ctx (some ⟨ErrorType.BindingNotFoundError, msg⟩)
      = some api.ErrBindingDoesNotExist ∧
    adapterToAPIError api ctx (some ⟨ErrorType.AppGuidNotProvidedError, msg⟩)
      = some api.ErrAppGuidNotProvided :=
  ⟨rfl, rfl, rfl⟩

/-- C6: for every context and every non-nil error that is none of the four adapter error
types, `adapterToAPIError` returns the user-facing error of `NewGenericError ctx err`; its
message is the generic message of the context, so two such errors with different texts
yield the same result. -/
theorem adapterToAPIError_wraps_unclassified (api : BrokerAPIErrors) (ctx : Context)
    (e1 e2 : GoError)
    (h1 : e1.type ≠ ErrorType.BindingAlreadyExistsError ∧
      e1.type ≠ ErrorType.BindingNotFoundError ∧
      e1.type ≠ ErrorType.AppGuidNotProvidedError ∧
      e1.type ≠ ErrorType.UnknownFailureError)
    (h2 : e2.type ≠ ErrorType.BindingAlreadyExistsError ∧
      e2.type ≠ ErrorType.BindingNotFoundError ∧
      e2.type ≠ ErrorType.AppGuidNotProvidedError ∧
      e2.type ≠ ErrorType.UnknownFailureError) :
    adapterToAPIError api ctx (some e1) = (NewGenericError ctx (some e1)).ErrorForCFUser ∧
    fmtS (adapterToAPIError api ctx (some e1)) = genericMessage ctx ∧
    adapterToAPIError api ctx (some e1) = adapterToAPIError api ctx (some e2) := by
  have key : ∀ e : GoError,
      e.type ≠ ErrorType.BindingAlreadyExistsError ∧
      e.type ≠ ErrorType.BindingNotFoundError ∧
      e.type ≠ ErrorType.AppGuidNotProvidedError ∧
      e.type ≠ ErrorType.UnknownFailureError →
      adapterToAPIError api ctx (some e) = some (errors.New (genericMessage ctx)) := by
    intro e h
    obtain ⟨t, m⟩ := e
    cases t <;> simp_all [adapterToAPIError, NewGenericError, DisplayableError.ErrorForCFUser]
  refine ⟨?_, ?_, ?_⟩
  · rw [key e1 h1]; rfl
  · rw [key e1 h1]; rfl
  · rw [key e1 h1, key e2 h2]

/-- Witness for C6: an operation-in-progress error and a plain error string. -/
theorem adapterToAPIError_wraps_unclassified_witness :
    adapterToAPIError ⟨errors.New "exists", errors.New "missing", errors.New "no app guid"⟩
        ⟨"redis", "guid-1", "req-7", "bind", 42⟩
        (some ⟨ErrorType.OperationInProgressError, "task 5 running"⟩)
      = (NewGenericError ⟨"redis", "guid-1", "req-7", "bind", 42⟩
          (some ⟨ErrorType.OperationInProgressError, "task 5 running"⟩)).ErrorForCFUser ∧
    fmtS (adapterToAPIError
        ⟨errors.New "exists", errors.New "missing", errors.New "no app guid"⟩
        ⟨"redis", "guid-1", "req-7", "bind", 42⟩
        (some ⟨ErrorType.OperationInProgressError, "task 5 running"⟩))
      = genericMessage ⟨"redis", "guid-1", "req-7", "bind", 42⟩ ∧
    adapterToAPIError ⟨errors.New "exists", errors.New "missing", errors.New "no app guid"⟩
        ⟨"redis", "guid-1", "req-7", "bind", 42⟩
        (some ⟨ErrorType.OperationInProgressError, "task 5 running"⟩)
      = adapterToAPIError ⟨errors.New "exists", errors.New "missing", errors.New "no app guid"⟩
        ⟨"redis", "guid-1", "req-7", "bind", 42⟩ (some (errors.New "secret stack trace")) :=
  adapterToAPIError_wraps_unclassified _ _ _ _ (by decide) (by decide)

end broker

/-! ## Properties of the startup checks -/

namespace semver

theorem New_minimum : New "2.57.0" = ⟨2, 57, 0, "", ""⟩ := by decide

/-- Against a version without pre-release tag, `preReleaseCompare` is 0 for a version
without tag and -1 for a tagged one. -/
theorem preReleaseCompare_untagged (v : Version) (M m p : Int) :
    preReleaseCompare v ⟨M, m, p, "", ""⟩ = if v.PreRelease = "" then 0 else -1 := by
  unfold preReleaseCompare
  by_cases h : v.PreRelease = ""
  · simp only [h, ne_eq, not_true_eq_false, and_false, if_false, if_true]
    decide
  · simp [h]

/-- Precedence against 2.57.0: a version is below it exactly when its number triple is
below (2, 57, 0), or equals it and carries a pre-release tag. -/
theorem lessThan_minimum_iff (v : Version) :
    v.LessThan (New "2.57.0") = false ↔
      (2 < v.Major ∨ (v.Major = 2 ∧ (57 < v.Minor ∨ (v.Minor = 57 ∧
        (0 < v.Patch ∨ (v.Patch = 0 ∧ v.PreRelease = "")))))) := by
  rw [New_minimum]
  unfold Version.LessThan Version.Compare
  rw [preReleaseCompare_untagged]
  simp only [Version.Slice, recursiveCompare]
  by_cases hp : v.PreRelease = "" <;> simp only [hp, if_true, if_false] <;>
    split_ifs <;> simp <;> omega

end semver

namespace broker

/-- The loop of the plan-id check returns an error exactly when some visited entry has a
positive count and an identifier that is not found in the catalog. -/
theorem verifyPlanIDsLoop_ne_none_iff (plans : List Plan) (m : List (String × Int)) :
    verifyPlanIDsLoop plans m ≠ none ↔
      ∃ pc ∈ m, 0 < pc.2 ∧ Plans.FindByID plans pc.1 = none := by
  induction m with
  | nil => simp [verifyPlanIDsLoop]
  | cons hd tl ih =>
    obtain ⟨planID, count⟩ := hd
    unfold verifyPlanIDsLoop
    by_cases hc : 0 < count <;> cases hf : Plans.FindByID plans planID
    · simp [hc, hf]
    · simp [hc, hf, ih]
    · have hc2 : ¬ 0 < count := hc
      simp [hc2, hf, ih]
    · simp [hc, hf, ih]

/-- The only error the loop of the plan-id check can return. -/
theorem verifyPlanIDsLoop_eq (plans : List Plan) (m : List (String × Int)) :
    verifyPlanIDsLoop plans m = none ∨
    verifyPlanIDsLoop plans m = some (errors.New
      "You cannot change the plan_id of a plan that has existing service instances") := by
  induction m with
  | nil => exact Or.inl rfl
  | cons hd tl ih =>
    obtain ⟨planID, count⟩ := hd
    unfold verifyPlanIDsLoop
    simp only
    split_ifs
    · exact Or.inr rfl
    · exact ih

/-- C7: when the registry count call succeeds with count map `m`, the plan-id check
returns an error if and only if some plan id with a positive count is not found among the
configured plans; the error message is then exactly the plan_id message; and a map whose
entries absent from the catalog all have a zero count is accepted. -/
theorem planIDs_check_fails_iff (b : Broker) (m : List (String × Int))
    (hcount : b.cfClient.CountInstancesOfServiceOffering b.serviceOffering.ID = (m, none)) :
    (b.verifyExistingInstancePlanIDsUnchanged.err ≠ none ↔
      ∃ pc ∈ m, 0 < pc.2 ∧ Plans.FindByID b.serviceOffering.Plans pc.1 = none) ∧
    (∀ e, b.verifyExistingInstancePlanIDsUnchanged.err = some e →
      e.type = ErrorType.errorString ∧
      e.Error = "You cannot change the plan_id of a plan that has existing service instances") ∧
    ((∀ pc ∈ m, Plans.FindByID b.serviceOffering.Plans pc.1 = none → pc.2 = 0) →
      b.verifyExistingInstancePlanIDsUnchanged.err = none) := by
  have herr : b.verifyExistingInstancePlanIDsUnchanged.err
      = verifyPlanIDsLoop b.serviceOffering.Plans m := by
    unfold Broker.verifyExistingInstancePlanIDsUnchanged
    rw [hcount]
  rw [herr]
  refine ⟨verifyPlanIDsLoop_ne_none_iff _ _, ?_, ?_⟩
  · intro e he
    rcases verifyPlanIDsLoop_eq b.serviceOffering.Plans m with h | h
    · rw [h] at he; cases he
    · rw [h] at he
      cases he
      exact ⟨rfl, rfl⟩
  · intro hzero
    by_contra hne
    obtain ⟨pc, hmem, hpos, hnone⟩ := (verifyPlanIDsLoop_ne_none_iff _ _).mp hne
    have := hzero pc hmem hnone
    omega

/-- Witness for C7: plan `gone` is no longer configured; with one live instance the check
fails, with none it passes. -/
theorem planIDs_check_fails_iff_witness :
    (Broker.verifyExistingInstancePlanIDsUnchanged
        ⟨⟨("2.57.0", none), fun _ => ([("small", 3), ("gone", 1)], none)⟩,
          ⟨(⟨true, true⟩, none)⟩, ⟨"offering", [⟨"small", none, none⟩]⟩⟩).err ≠ none ∧
    (Broker.verifyExistingInstancePlanIDsUnchanged
        ⟨⟨("2.57.0", none), fun _ => ([("small", 3), ("gone", 0)], none)⟩,
          ⟨(⟨true, true⟩, none)⟩, ⟨"offering", [⟨"small", none, none⟩]⟩⟩).err = none :=
  ⟨(planIDs_check_fails_iff
      ⟨⟨("2.57.0", none), fun _ => ([("small", 3), ("gone", 1)], none)⟩,
        ⟨(⟨true, true⟩, none)⟩, ⟨"offering", [⟨"small", none, none⟩]⟩⟩
      [("small", 3), ("gone", 1)] rfl).1.mpr ⟨("gone", 1), by simp, by decide, by decide⟩,
   (planIDs_check_fails_iff
      ⟨⟨("2.57.0", none), fun _ => ([("small", 3), ("gone", 0)], none)⟩,
        ⟨(⟨true, true⟩, none)⟩, ⟨"offering", [⟨"small", none, none⟩]⟩⟩
      [("small", 3), ("gone", 0)] rfl).2.2 (by decide)⟩

/-- C8 as stated fails: `2.57.0-rc1` parses as a semantic version whose number triple is
(2, 57, 0), which is at least (2, 57, 0), yet `checkCFAPIVersion` rejects it as
insufficient, because a pre-release of 2.57.0 precedes 2.57.0. -/
theorem cf_version_prerelease_rejected :
    semver.NewVersion "2.57.0-rc1" = some ⟨2, 57, 0, "rc1", ""⟩ ∧
    (Broker.checkCFAPIVersion
        ⟨⟨("2.57.0-rc1", none), fun _ => ([], none)⟩, ⟨(⟨true, true⟩, none)⟩,
          ⟨"offering", []⟩⟩).err
      = some (errors.New "Cloud Foundry API version is insufficient, ODB requires CF v238+.") ∧
    ¬ ((Broker.checkCFAPIVersion
        ⟨⟨("2.57.0-rc1", none), fun _ => ([], none)⟩, ⟨(⟨true, true⟩, none)⟩,
          ⟨"offering", []⟩⟩).err = none ↔
      ((2 : Int) < 2 ∨ ((2 : Int) = 2 ∧ ((57 : Int) < 57 ∨ ((57 : Int) = 57 ∧ (0 : Int) ≤ 0))))) := by
  decide

/-- C8, amended: for every CF API version string that parses as a semantic version,
`checkCFAPIVersion` succeeds if and only if the version is not below 2.57.0 in semantic
precedence: its (major, minor, patch) triple, compared numerically component by
component, is above (2, 57, 0), or equals (2, 57, 0) and the version has no pre-release
tag. A version that fails the test gets the insufficient-version error. The comparison is
numeric: 2.100.0 and 2.57.0 are accepted, 2.56.9 is rejected. -/
theorem cf_version_check_semantic_precedence (b : Broker) (raw : String) (v : semver.Version)
    (hget : b.cfClient.GetAPIVersion = (raw, none))
    (hparse : semver.NewVersion raw = some v) :
    (b.checkCFAPIVersion.err = none ↔
      (2 < v.Major ∨ (v.Major = 2 ∧ (57 < v.Minor ∨ (v.Minor = 57 ∧
        (0 < v.Patch ∨ (v.Patch = 0 ∧ v.PreRelease = ""))))))) ∧
    (b.checkCFAPIVersion.err ≠ none →
      b.checkCFAPIVersion.err = some (errors.New
        "Cloud Foundry API version is insufficient, ODB requires CF v238+.")) ∧
    (Broker.checkCFAPIVersion
      ⟨⟨("2.100.0", none), b.cfClient.CountInstancesOfServiceOffering⟩, b.boshClient,
        b.serviceOffering⟩).err = none ∧
    (Broker.checkCFAPIVersion
      ⟨⟨("2.57.0", none), b.cfClient.CountInstancesOfServiceOffering⟩, b.boshClient,
        b.serviceOffering⟩).err = none ∧
    (Broker.checkCFAPIVersion
      ⟨⟨("2.56.9", none), b.cfClient.CountInstancesOfServiceOffering⟩, b.boshClient,
        b.serviceOffering⟩).err = some (errors.New
        "Cloud Foundry API version is insufficient, ODB requires CF v238+.") := by
  have herr : b.checkCFAPIVersion.err =
      if v.LessThan (semver.New "2.57.0") then
        some (errors.New "Cloud Foundry API version is insufficient, ODB requires CF v238+.")
      else none := by
    unfold Broker.checkCFAPIVersion
    rw [hget]
    simp only [hparse]
    split_ifs <;> rfl
  rw [herr]
  refine ⟨?_, ?_, rfl, rfl, rfl⟩
  · rw [← semver.lessThan_minimum_iff]
    cases semver.Version.LessThan v (semver.New "2.57.0") <;> simp
  · cases semver.Version.LessThan v (semver.New "2.57.0") <;> simp

/-- Witness for C8 amended, at the version string `2.100.0`. -/
theorem cf_version_check_semantic_precedence_witness :
    (Broker.checkCFAPIVersion
        ⟨⟨("2.100.0", none), fun _ => ([], none)⟩, ⟨(⟨true, true⟩, none)⟩,
          ⟨"offering", []⟩⟩).err = none :=
  (cf_version_check_semantic_precedence
      ⟨⟨("2.100.0", none), fun _ => ([], none)⟩, ⟨(⟨true, true⟩, none)⟩, ⟨"offering", []⟩⟩
      "2.100.0" ⟨2, 100, 0, "", ""⟩ rfl (by decide)).1.mpr (by decide)

/-- The parse-failure message differs from the insufficient-version message whatever the
raw string: the two texts part at their 27th character. -/
theorem parse_message_ne_insufficient (raw : String) :
    "Cloud Foundry API version couldn't be parsed. Expected a semver, got: " ++ raw ++ "."
      ≠ "Cloud Foundry API version is insufficient, ODB requires CF v238+." := by
  intro h
  have h1 : (("Cloud Foundry API version couldn't be parsed. Expected a semver, got: "
      ++ raw ++ ".").data.take 27) = "Cloud Foundry API version c".data := rfl
  rw [h] at h1
  revert h1
  decide

/-- C9: when `GetAPIVersion` returns a raw string that does not parse as a semantic
version, `checkCFAPIVersion` returns the could-not-be-parsed error quoting that string,
which is not the insufficient-version error; the empty string is such a string; and when
`GetAPIVersion` fails with error `e`, the result is the text of `e` followed by
`. ODB requires CF v238+.`. -/
theorem cf_version_parse_failure (b : Broker) (raw : String) :
    (b.cfClient.GetAPIVersion = (raw, none) → semver.NewVersion raw = none →
      b.checkCFAPIVersion.err = some (errors.New
        ("Cloud Foundry API version couldn't be parsed. Expected a semver, got: " ++ raw ++ "."))
      ∧ b.checkCFAPIVersion.err ≠ some (errors.New
        "Cloud Foundry API version is insufficient, ODB requires CF v238+.")) ∧
    semver.NewVersion "" = none ∧
    (∀ e : GoError, b.cfClient.GetAPIVersion = (raw, some e) →
      b.checkCFAPIVersion.err = some (errors.New (e.Error ++ ". ODB requires CF v238+."))) := by
  refine ⟨?_, by decide, ?_⟩
  · intro hget hparse
    have herr : b.checkCFAPIVersion.err = some (errors.New
        ("Cloud Foundry API version couldn't be parsed. Expected a semver, got: "
          ++ raw ++ ".")) := by
      unfold Broker.checkCFAPIVersion
      rw [hget]
      simp only [hparse]
    rw [herr]
    refine ⟨rfl, ?_⟩
    intro h
    have hmsg := congrArg (fun o => fmtS o) h
    exact parse_message_ne_insufficient raw hmsg
  · intro e hget
    unfold Broker.checkCFAPIVersion
    rw [hget]

/-- Witness for C9: the empty version string, and a failing `GetAPIVersion`. -/
theorem cf_version_parse_failure_witness :
    (Broker.checkCFAPIVersion
        ⟨⟨("", none), fun _ => ([], none)⟩, ⟨(⟨true, true⟩, none)⟩, ⟨"offering", []⟩⟩).err
      = some (errors.New
        ("Cloud Foundry API version couldn't be parsed. Expected a semver, got: " ++ "" ++ ".")) ∧
    (Broker.checkCFAPIVersion
        ⟨⟨("", some (errors.New "connection refused")), fun _ => ([], none)⟩,
          ⟨(⟨true, true⟩, none)⟩, ⟨"offering", []⟩⟩).err
      = some (errors.New ((errors.New "connection refused").Error ++ ". ODB requires CF v238+.")) :=
  ⟨((cf_version_parse_failure
      ⟨⟨("", none), fun _ => ([], none)⟩, ⟨(⟨true, true⟩, none)⟩, ⟨"offering", []⟩⟩ "").1
        rfl (by decide)).1,
   (cf_version_parse_failure
      ⟨⟨("", some (errors.New "connection refused")), fun _ => ([], none)⟩,
        ⟨(⟨true, true⟩, none)⟩, ⟨"offering", []⟩⟩ "").2.2 (errors.New "connection refused") rfl⟩

/-- The errand-gate message differs from the base-gate message whatever the minimum
version number: the two texts part at their 30th character. -/
theorem errand_message_ne_base (n : Int) :
    "API version is insufficient, one or more plans are configured with lifecycle_errands which require BOSH v"
        ++ fmt.formatInt n ++ "+."
      ≠ "API version is insufficient, ODB requires BOSH v257+." := by
  intro h
  have h1 : (("API version is insufficient, one or more plans are configured with lifecycle_errands which require BOSH v"
      ++ fmt.formatInt n ++ "+.").data.take 30) = "API version is insufficient, o".data := rfl
  rw [h] at h1
  revert h1
  decide

/-- C10: when `GetDirectorVersion` succeeds, `checkBoshDirectorVersion` fails with the
lifecycle-errand message if and only if the director supports ODB, the service offering
has a plan with lifecycle errands, and the director does not support lifecycle errands;
and when the director supports ODB and no plan declares an errand the check passes,
whether or not the director supports lifecycle errands. -/
theorem bosh_errand_gate (b : Broker) (minErrands : Int) (v : DirectorVersion)
    (hget : b.boshClient.GetDirectorVersion = (v, none)) :
    ((b.checkBoshDirectorVersion minErrands).err = some (errors.New
        ("API version is insufficient, one or more plans are configured with lifecycle_errands which require BOSH v"
          ++ fmt.formatInt minErrands ++ "+.")) ↔
      (v.SupportsODB = true ∧ b.serviceOffering.HasLifecycleErrands = true ∧
        v.SupportsLifecycleErrands = false)) ∧
    (v.SupportsODB = true → b.serviceOffering.HasLifecycleErrands = false →
      (b.checkBoshDirectorVersion minErrands).err = none) := by
  unfold Broker.checkBoshDirectorVersion
  rw [hget]
  simp only
  cases hodb : v.SupportsODB <;> cases herr : b.serviceOffering.HasLifecycleErrands <;>
    cases hle : v.SupportsLifecycleErrands <;> simp
  all_goals
    intro h
    have hmsg := congrArg GoError.Error h
    exact errand_message_ne_base minErrands hmsg.symm

/-- Witness for C10: a director that supports ODB but not lifecycle errands, and an
offering whose plan declares a post-deploy errand. -/
theorem bosh_errand_gate_witness :
    (Broker.checkBoshDirectorVersion
        ⟨⟨("2.57.0", none), fun _ => ([], none)⟩, ⟨(⟨true, false⟩, none)⟩,
          ⟨"offering", [⟨"small", some "health-check", none⟩]⟩⟩ 261).err
      = some (errors.New
        ("API version is insufficient, one or more plans are configured with lifecycle_errands which require BOSH v"
          ++ fmt.formatInt 261 ++ "+.")) :=
  (bosh_errand_gate
      ⟨⟨("2.57.0", none), fun _ => ([], none)⟩, ⟨(⟨true, false⟩, none)⟩,
        ⟨"offering", [⟨"small", some "health-check", none⟩]⟩⟩ 261 ⟨true, false⟩ rfl).1.mpr
    ⟨rfl, by decide, rfl⟩

end broker

/-! ## Properties of the composed startup check and of the further error constructors -/

namespace broker

/-- C11: when `GetDirectorVersion` succeeds, `checkBoshDirectorVersion` fails with exactly
the base message if and only if the director version does not support ODB, whatever the
plans declare; and it returns nil exactly when the director supports ODB and it is not
the case that a plan declares lifecycle errands which the director does not support. -/
theorem bosh_base_gate (b : Broker) (minErrands : Int) (v : DirectorVersion)
    (hget : b.boshClient.GetDirectorVersion = (v, none)) :
    ((b.checkBoshDirectorVersion minErrands).err
        = some (errors.New "API version is insufficient, ODB requires BOSH v257+.") ↔
      v.SupportsODB = false) ∧
    ((b.checkBoshDirectorVersion minErrands).err = none ↔
      (v.SupportsODB = true ∧
        ¬ (b.serviceOffering.HasLifecycleErrands = true ∧
          v.SupportsLifecycleErrands = false))) := by
  unfold Broker.checkBoshDirectorVersion
  rw [hget]
  simp only
  cases hodb : v.SupportsODB <;> cases herr : b.serviceOffering.HasLifecycleErrands <;>
    cases hle : v.SupportsLifecycleErrands <;> simp
  intro h
  have hmsg := congrArg GoError.Error h
  exact errand_message_ne_base minErrands hmsg

/-- Witness for C11: a director below the base minimum, with a plan that declares an
errand. -/
theorem bosh_base_gate_witness :
    (Broker.checkBoshDirectorVersion
        ⟨⟨("2.57.0", none), fun _ => ([], none)⟩, ⟨(⟨false, false⟩, none)⟩,
          ⟨"offering", [⟨"small", some "health-check", none⟩]⟩⟩ 261).err
      = some (errors.New "API version is insufficient, ODB requires BOSH v257+.") :=
  (bosh_base_gate
      ⟨⟨("2.57.0", none), fun _ => ([], none)⟩, ⟨(⟨false, false⟩, none)⟩,
        ⟨"offering", [⟨"small", some "health-check", none⟩]⟩⟩ 261 ⟨false, false⟩ rfl).1.mpr rfl

/-- The API version checks pass exactly when both the CF check and the director check
pass. -/
theorem checkAPIVersions_err_eq_none_iff (b : Broker) (minErrands : Int) :
    (b.checkAPIVersions minErrands).err = none ↔
      b.checkCFAPIVersion.err = none ∧ (b.checkBoshDirectorVersion minErrands).err = none := by
  unfold Broker.checkAPIVersions
  cases hcf : b.checkCFAPIVersion.err <;>
    cases hbosh : (b.checkBoshDirectorVersion minErrands).err <;> simp [hcf, hbosh]

/-- C12: `startupChecks` returns nil if and only if the CF API version check, the BOSH
director version check and the plan-id-unchanged check all succeed; so if any of them
fails it returns a non-nil error. -/
theorem startupChecks_passes_iff (b : Broker) (minErrands : Int) :
    ((b.startupChecks minErrands).err = none ↔
      (b.checkCFAPIVersion.err = none ∧ (b.checkBoshDirectorVersion minErrands).err = none ∧
        b.verifyExistingInstancePlanIDsUnchanged.err = none)) ∧
    ((b.checkCFAPIVersion.err ≠ none ∨ (b.checkBoshDirectorVersion minErrands).err ≠ none ∨
        b.verifyExistingInstancePlanIDsUnchanged.err ≠ none) →
      (b.startupChecks minErrands).err ≠ none) := by
  have hiff : (b.startupChecks minErrands).err = none ↔
      (b.checkCFAPIVersion.err = none ∧ (b.checkBoshDirectorVersion minErrands).err = none ∧
        b.verifyExistingInstancePlanIDsUnchanged.err = none) := by
    rw [← and_assoc, ← checkAPIVersions_err_eq_none_iff]
    unfold Broker.startupChecks
    cases hapi : (b.checkAPIVersions minErrands).err <;>
      cases hplan : b.verifyExistingInstancePlanIDsUnchanged.err <;> simp [hapi, hplan]
  refine ⟨hiff, ?_⟩
  intro hfail hnone
  obtain ⟨h1, h2, h3⟩ := hiff.mp hnone
  rcases hfail with h | h | h
  · exact h h1
  · exact h h2
  · exact h h3

/-- Witness for C12: all three checks pass except the plan-id check, whose plan `gone`
still has a live instance; startup fails. -/
theorem startupChecks_passes_iff_witness :
    (Broker.startupChecks
        ⟨⟨("2.57.0", none), fun _ => ([("gone", 1)], none)⟩, ⟨(⟨true, true⟩, none)⟩,
          ⟨"offering", [⟨"small", none, none⟩]⟩⟩ 261).err ≠ none :=
  (startupChecks_passes_iff
      ⟨⟨("2.57.0", none), fun _ => ([("gone", 1)], none)⟩, ⟨(⟨true, true⟩, none)⟩,
        ⟨"offering", [⟨"small", none, none⟩]⟩⟩ 261).2 (Or.inr (Or.inr (by decide)))

/-- C13: whenever `CountInstancesOfServiceOffering` returns an error `e`, the plan-id
check returns that same `e`, whatever count map came with it and whatever the plan
catalog holds, after the one registry call. -/
theorem planIDs_check_propagates_registry_error (b : Broker) (m : List (String × Int))
    (e : GoError)
    (hcount : b.cfClient.CountInstancesOfServiceOffering b.serviceOffering.ID = (m, some e)) :
    b.verifyExistingInstancePlanIDsUnchanged
      = ⟨some e, [Call.CountInstancesOfServiceOffering b.serviceOffering.ID]⟩ := by
  unfold Broker.verifyExistingInstancePlanIDsUnchanged
  rw [hcount]

/-- Witness for C13: the registry answers with a not-found error while the count map
holds an instance of a plan that is not configured. -/
theorem planIDs_check_propagates_registry_error_witness :
    Broker.verifyExistingInstancePlanIDsUnchanged
        ⟨⟨("2.57.0", none),
            fun _ => ([("gone", 1)], some ⟨ErrorType.other "cf.ResourceNotFoundError", "no such offering"⟩)⟩,
          ⟨(⟨true, true⟩, none)⟩, ⟨"offering", [⟨"small", none, none⟩]⟩⟩
      = ⟨some ⟨ErrorType.other "cf.ResourceNotFoundError", "no such offering"⟩,
          [Call.CountInstancesOfServiceOffering "offering"]⟩ :=
  planIDs_check_propagates_registry_error
    ⟨⟨("2.57.0", none),
        fun _ => ([("gone", 1)], some ⟨ErrorType.other "cf.ResourceNotFoundError", "no such offering"⟩)⟩,
      ⟨(⟨true, true⟩, none)⟩, ⟨"offering", [⟨"small", none, none⟩]⟩⟩
    [("gone", 1)] ⟨ErrorType.other "cf.ResourceNotFoundError", "no such offering"⟩ rfl

/-- C14: for every action string and error, the user-facing half of
`NewBoshRequestError` has the message `Currently unable to <action> service instance,
please try again later`, the same for any two errors, and the operator-facing half is
the error itself. -/
theorem bosh_request_error_user_message (action : String) (e e2 : Option GoError) :
    fmtS (NewBoshRequestError action e).ErrorForCFUser
      = "Currently unable to " ++ action ++ " service instance, please try again later" ∧
    (NewBoshRequestError action e).ErrorForCFUser
      = (NewBoshRequestError action e2).ErrorForCFUser ∧
    (NewBoshRequestError action e).errorForOperator = e :=
  ⟨rfl, rfl, rfl⟩

end broker

/-! ## Properties of the management API and of the registry client -/

namespace mgmtapi

open broker

/-- C15: for every error `e`, `NewOperationInProgressError e` has the dynamic type
`OperationInProgressError` and its `Error()` is `e.Error()`; and the management API
answers an upgrade that fails with such an error with HTTP 409. -/
theorem operation_in_progress_error_kept (e : GoError) (data : OperationData) :
    (NewOperationInProgressError e).type = ErrorType.OperationInProgressError ∧
    (NewOperationInProgressError e).Error = e.Error ∧
    (upgradeInstance (data, some (NewOperationInProgressError e))).StatusCode = 409 := by
  refine ⟨rfl, rfl, ?_⟩
  have h1 : (NewOperationInProgressError e).type ≠ cf.ResourceNotFoundErrorType := by
    intro h; cases h
  have h2 : (NewOperationInProgressError e).type ≠ DeploymentNotFoundErrorType := by
    intro h; cases h
  unfold upgradeInstance
  simp only
  have h3 : (NewOperationInProgressError e).type = ErrorType.OperationInProgressError := rfl
  rw [if_neg h1, if_neg h2, if_pos h3]

end mgmtapi

namespace cf

open broker strings

/-- The text of the unexpected-status error of a delete request names the status. -/
theorem unexpectedDeleteStatus_names (escapeOther : Char → List Char) (resp : Response) :
    Contains (unexpectedDeleteStatus escapeOther resp).Error
      ("Unexpected reponse status " ++ fmt.formatInt resp.StatusCode) := by
  unfold unexpectedDeleteStatus errors.New GoError.Error
  exact contains_append_left _ (contains_append_left _ (contains_refl _))

/-- A delete request answered 404 returns nil; answered with a status that is neither
2xx nor 404 it returns the unexpected-status error of a delete request. -/
theorem delete_of_response (c : Client) (escapeOther : Char → List Char) (path : String)
    (hauth : c.authHeaderBuilder.2 = none) :
    ((c.server "DELETE" path).StatusCode = 404 → c.delete escapeOther path = none) ∧
    (¬ (200 ≤ (c.server "DELETE" path).StatusCode ∧ (c.server "DELETE" path).StatusCode < 300) →
      (c.server "DELETE" path).StatusCode ≠ 404 →
      c.delete escapeOther path
        = some (unexpectedDeleteStatus escapeOther (c.server "DELETE" path))) := by
  unfold Client.delete
  rw [hauth]
  constructor
  · intro h404
    simp [h404]
  · intro h2xx h404
    simp only [h2xx, h404, if_false]

/-- Quoting goes character by character. -/
theorem quoteChars_append (escapeOther : Char → List Char) (l1 l2 : List Char) :
    strconv.quoteChars escapeOther (l1 ++ l2)
      = strconv.quoteChars escapeOther l1 ++ strconv.quoteChars escapeOther l2 := by
  induction l1 with
  | nil => rfl
  | cons ch rest ih => simp [strconv.quoteChars, ih]

/-- A printable ASCII character other than the double quote and the backslash is left as
it is. -/
theorem quoteChar_plain (escapeOther : Char → List Char) (ch : Char)
    (h : 32 ≤ ch.toNat ∧ ch.toNat < 127 ∧ ch.toNat ≠ 34 ∧ ch.toNat ≠ 92) :
    strconv.quoteChar escapeOther ch = [ch] := by
  unfold strconv.quoteChar
  have h1 : ¬ (ch.toNat = 34 ∨ ch.toNat = 92) := by omega
  have h2 : 32 ≤ ch.toNat ∧ ch.toNat < 127 := ⟨h.1, h.2.1⟩
  rw [if_neg h1, if_pos h2]

/-- A control character without a named escape is written as `\x` and two hexadecimal
digits. -/
theorem quoteChars_control (escapeOther : Char → List Char) (ch : Char)
    (h32 : ch.toNat < 32) (hnamed : ch.toNat < 7 ∨ 13 < ch.toNat) :
    strconv.quoteChars escapeOther [ch]
      = [Char.ofNat 92, 'x', strconv.hexDigit (ch.toNat / 16),
          strconv.hexDigit (ch.toNat % 16)] := by
  have h1 : ¬ (ch.toNat = 34 ∨ ch.toNat = 92) := by omega
  have h2 : ¬ (32 ≤ ch.toNat ∧ ch.toNat < 127) := by omega
  have h7 : ¬ ch.toNat = 7 := by omega
  have h8 : ¬ ch.toNat = 8 := by omega
  have h12 : ¬ ch.toNat = 12 := by omega
  have h10 : ¬ ch.toNat = 10 := by omega
  have h13 : ¬ ch.toNat = 13 := by omega
  have h9 : ¬ ch.toNat = 9 := by omega
  have h11 : ¬ ch.toNat = 11 := by omega
  show strconv.quoteChar escapeOther ch ++ [] = _
  unfold strconv.quoteChar
  rw [if_neg h1, if_neg h2, if_neg h7, if_neg h8, if_neg h12, if_neg h10, if_neg h13,
    if_neg h9, if_neg h11, if_pos h32, List.append_nil]

/-- DEL and the characters outside ASCII are written as the parameter says. -/
theorem quoteChars_other (escapeOther : Char → List Char) (ch : Char)
    (h127 : 127 ≤ ch.toNat) :
    strconv.quoteChars escapeOther [ch] = escapeOther ch := by
  have h1 : ¬ (ch.toNat = 34 ∨ ch.toNat = 92) := by omega
  have h2 : ¬ (32 ≤ ch.toNat ∧ ch.toNat < 127) := by omega
  have h7 : ¬ ch.toNat = 7 := by omega
  have h8 : ¬ ch.toNat = 8 := by omega
  have h12 : ¬ ch.toNat = 12 := by omega
  have h10 : ¬ ch.toNat = 10 := by omega
  have h13 : ¬ ch.toNat = 13 := by omega
  have h9 : ¬ ch.toNat = 9 := by omega
  have h11 : ¬ ch.toNat = 11 := by omega
  have h32 : ¬ ch.toNat < 32 := by omega
  show strconv.quoteChar escapeOther ch ++ [] = _
  unfold strconv.quoteChar
  rw [if_neg h1, if_neg h2, if_neg h7, if_neg h8, if_neg h12, if_neg h10, if_neg h13,
    if_neg h9, if_neg h11, if_neg h32, List.append_nil]

/-- C16 as stated fails: `DeleteBinding` answered 403 with the body `{"foo":"bar"}`
returns an error whose message carries the body in quoted form, the inner double quotes
escaped, as the test suite expects; the raw body is not part of the message. -/
theorem delete_unexpected_status_quotes_body :
    Client.DeleteBinding
        ⟨("auth-header", none), fun _ _ => ⟨403, "\x7b\"foo\":\"bar\"\x7d"⟩,
          ⟨fun _ => none, fun _ => Except.error "invalid", fun _ => Except.error "invalid",
            fun _ => Except.error "invalid"⟩⟩
        (fun ch => [ch]) ⟨"596736f1", "65bdd3a3"⟩
      = some (errors.New
          "Unexpected reponse status 403, \"\x7b\\\"foo\\\":\\\"bar\\\"\x7d\"") ∧
    Contains "Unexpected reponse status 403, \"\x7b\\\"foo\\\":\\\"bar\\\"\x7d\""
      "\"\x7b\\\"foo\\\":\\\"bar\\\"\x7d\"" ∧
    ¬ Contains "Unexpected reponse status 403, \"\x7b\\\"foo\\\":\\\"bar\\\"\x7d\""
      "\x7b\"foo\":\"bar\"\x7d" := by
  decide

/-- C16, amended: when the registry answers a delete request with 404 Not Found,
whatever the body, each of `DeleteServiceInstance`, `DeleteBinding` and
`DeleteServiceKey` returns no error; when it answers with a status that is neither a
success status nor 404 (403 is one), each returns the error
`Unexpected reponse status <status>, <q>`, which names the status and carries the body in
quoted form `<q>`: the body between double quotes, character by character, each double
quote and each backslash inside it preceded by a backslash, every other printable ASCII
character unchanged, the control characters written as their escape sequences, DEL and
the characters outside ASCII as the Go release in use renders them; for the body
`{"foo":"bar"}` that is `"{\"foo\":\"bar\"}"`. -/
theorem delete_operations_idempotent (header : String) (json : Decoder) (resp : Response)
    (escapeOther : Char → List Char)
    (instanceGUID : String) (binding : Binding) (serviceKey : ServiceKey) :
    (resp.StatusCode = 404 →
      Client.DeleteServiceInstance ⟨(header, none), fun _ _ => resp, json⟩ escapeOther
        instanceGUID = none ∧
      Client.DeleteBinding ⟨(header, none), fun _ _ => resp, json⟩ escapeOther binding = none ∧
      Client.DeleteServiceKey ⟨(header, none), fun _ _ => resp, json⟩ escapeOther serviceKey
        = none) ∧
    (¬ (200 ≤ resp.StatusCode ∧ resp.StatusCode < 300) → resp.StatusCode ≠ 404 →
      Client.DeleteServiceInstance ⟨(header, none), fun _ _ => resp, json⟩ escapeOther
          instanceGUID
        = some (errors.New ("Unexpected reponse status " ++ fmt.formatInt resp.StatusCode
            ++ ", " ++ strconv.Quote escapeOther resp.Body)) ∧
      Client.DeleteBinding ⟨(header, none), fun _ _ => resp, json⟩ escapeOther binding
        = some (errors.New ("Unexpected reponse status " ++ fmt.formatInt resp.StatusCode
            ++ ", " ++ strconv.Quote escapeOther resp.Body)) ∧
      Client.DeleteServiceKey ⟨(header, none), fun _ _ => resp, json⟩ escapeOther serviceKey
        = some (errors.New ("Unexpected reponse status " ++ fmt.formatInt resp.StatusCode
            ++ ", " ++ strconv.Quote escapeOther resp.Body)) ∧
      Contains ("Unexpected reponse status " ++ fmt.formatInt resp.StatusCode
            ++ ", " ++ strconv.Quote escapeOther resp.Body)
        ("Unexpected reponse status " ++ fmt.formatInt resp.StatusCode)) ∧
    (Client.DeleteBinding ⟨(header, none), fun _ _ => ⟨403, resp.Body⟩, json⟩ escapeOther
        binding
      = some (errors.New
          ("Unexpected reponse status 403, " ++ strconv.Quote escapeOther resp.Body))) ∧
    ((strconv.Quote escapeOther resp.Body).data
      = Char.ofNat 34 :: (strconv.quoteChars escapeOther resp.Body.data ++ [Char.ofNat 34])) ∧
    (∀ l1 l2 : List Char,
      strconv.quoteChars escapeOther (l1 ++ l2)
        = strconv.quoteChars escapeOther l1 ++ strconv.quoteChars escapeOther l2) ∧
    (strconv.quoteChars escapeOther [Char.ofNat 34] = [Char.ofNat 92, Char.ofNat 34]) ∧
    (strconv.quoteChars escapeOther [Char.ofNat 92] = [Char.ofNat 92, Char.ofNat 92]) ∧
    (∀ ch : Char, 32 ≤ ch.toNat → ch.toNat < 127 → ch.toNat ≠ 34 → ch.toNat ≠ 92 →
      strconv.quoteChars escapeOther [ch] = [ch]) ∧
    (strconv.quoteChars escapeOther
        [Char.ofNat 7, Char.ofNat 8, Char.ofNat 12, Char.ofNat 10, Char.ofNat 13,
          Char.ofNat 9, Char.ofNat 11]
      = [Char.ofNat 92, 'a', Char.ofNat 92, 'b', Char.ofNat 92, 'f', Char.ofNat 92, 'n',
          Char.ofNat 92, 'r', Char.ofNat 92, 't', Char.ofNat 92, 'v']) ∧
    (strconv.quoteChars escapeOther [Char.ofNat 0, Char.ofNat 1, Char.ofNat 27, Char.ofNat 31]
      = [Char.ofNat 92, 'x', '0', '0', Char.ofNat 92, 'x', '0', '1',
          Char.ofNat 92, 'x', '1', 'b', Char.ofNat 92, 'x', '1', 'f']) ∧
    (∀ ch : Char, ch.toNat < 32 → (ch.toNat < 7 ∨ 13 < ch.toNat) →
      strconv.quoteChars escapeOther [ch]
        = [Char.ofNat 92, 'x', strconv.hexDigit (ch.toNat / 16),
            strconv.hexDigit (ch.toNat % 16)]) ∧
    (∀ ch : Char, 127 ≤ ch.toNat → strconv.quoteChars escapeOther [ch] = escapeOther ch) ∧
    (strconv.Quote escapeOther "\x7b\"foo\":\"bar\"\x7d"
      = "\"\x7b\\\"foo\\\":\\\"bar\\\"\x7d\"") := by
  refine ⟨fun h404 => ⟨?_, ?_, ?_⟩, fun h2xx h404 => ⟨?_, ?_, ?_, ?_⟩, ?_, rfl,
    quoteChars_append escapeOther, rfl, rfl, ?_, rfl, rfl, ?_, ?_, rfl⟩
  · exact (delete_of_response ⟨(header, none), fun _ _ => resp, json⟩ escapeOther _ rfl).1 h404
  · exact (delete_of_response ⟨(header, none), fun _ _ => resp, json⟩ escapeOther _ rfl).1 h404
  · exact (delete_of_response ⟨(header, none), fun _ _ => resp, json⟩ escapeOther _ rfl).1 h404
  · exact (delete_of_response ⟨(header, none), fun _ _ => resp, json⟩ escapeOther _ rfl).2
      h2xx h404
  · exact (delete_of_response ⟨(header, none), fun _ _ => resp, json⟩ escapeOther _ rfl).2
      h2xx h404
  · exact (delete_of_response ⟨(header, none), fun _ _ => resp, json⟩ escapeOther _ rfl).2
      h2xx h404
  · exact unexpectedDeleteStatus_names escapeOther resp
  · exact (delete_of_response ⟨(header, none), fun _ _ => ⟨403, resp.Body⟩, json⟩
      escapeOther _ rfl).2 (by simp) (by simp)
  · intro ch h32 h127 h34 h92
    simp [strconv.quoteChars, quoteChar_plain escapeOther ch ⟨h32, h127, h34, h92⟩]
  · intro ch h32 hnamed
    exact quoteChars_control escapeOther ch h32 hnamed
  · intro ch h127
    exact quoteChars_other escapeOther ch h127

/-- Witness for C16 amended: the answers 404 and 403 with the body of the test suite. -/
theorem delete_operations_idempotent_witness :
    Client.DeleteBinding
        ⟨("auth-header", none), fun _ _ => ⟨404, "\x7b\"foo\":\"bar\"\x7d"⟩,
          ⟨fun _ => none, fun _ => Except.error "invalid", fun _ => Except.error "invalid",
            fun _ => Except.error "invalid"⟩⟩
        (fun ch => [ch]) ⟨"596736f1", "65bdd3a3"⟩ = none ∧
    Client.DeleteBinding
        ⟨("auth-header", none), fun _ _ => ⟨403, "\x7b\"foo\":\"bar\"\x7d"⟩,
          ⟨fun _ => none, fun _ => Except.error "invalid", fun _ => Except.error "invalid",
            fun _ => Except.error "invalid"⟩⟩
        (fun ch => [ch]) ⟨"596736f1", "65bdd3a3"⟩
      = some (errors.New ("Unexpected reponse status " ++ fmt.formatInt 403
            ++ ", " ++ strconv.Quote (fun ch => [ch]) "\x7b\"foo\":\"bar\"\x7d")) :=
  ⟨((delete_operations_idempotent "auth-header"
      ⟨fun _ => none, fun _ => Except.error "invalid", fun _ => Except.error "invalid",
        fun _ => Except.error "invalid"⟩
      ⟨404, "\x7b\"foo\":\"bar\"\x7d"⟩ (fun ch => [ch]) "596736f1" ⟨"596736f1", "65bdd3a3"⟩
      ⟨"596736f1"⟩).1 rfl).2.1,
   ((delete_operations_idempotent "auth-header"
      ⟨fun _ => none, fun _ => Except.error "invalid", fun _ => Except.error "invalid",
        fun _ => Except.error "invalid"⟩
      ⟨403, "\x7b\"foo\":\"bar\"\x7d"⟩ (fun ch => [ch]) "596736f1" ⟨"596736f1", "65bdd3a3"⟩
      ⟨"596736f1"⟩).2.1 (by decide) (by decide)).2.1⟩

/-- C17: for every response to `GetInstance`, status 404 yields a
`ResourceNotFoundError`, 401 an `UnauthorizedError`, 403 a `ForbiddenError`, a 200 whose
body does not decode an `InvalidResponseError` whose message contains
`Invalid response body`, and any other non-2xx status `s` with body `b` the error with
message `Unexpected reponse status <s>, "<b>"`, which is none of the former kinds. -/
theorem getInstance_classification (header : String) (json : Decoder) (resp : Response)
    (guid : String) :
    (resp.StatusCode = 404 →
      ∃ e, errorOf (Client.GetInstance ⟨(header, none), fun _ _ => resp, json⟩ guid) = some e ∧
        e.type = ResourceNotFoundErrorType) ∧
    (resp.StatusCode = 401 →
      ∃ e, errorOf (Client.GetInstance ⟨(header, none), fun _ _ => resp, json⟩ guid) = some e ∧
        e.type = UnauthorizedErrorType) ∧
    (resp.StatusCode = 403 →
      ∃ e, errorOf (Client.GetInstance ⟨(header, none), fun _ _ => resp, json⟩ guid) = some e ∧
        e.type = ForbiddenErrorType) ∧
    (resp.StatusCode = 200 → ∀ t, json.decodeInstance resp.Body = Except.error t →
      ∃ e, errorOf (Client.GetInstance ⟨(header, none), fun _ _ => resp, json⟩ guid) = some e ∧
        e.type = InvalidResponseErrorType ∧ Contains e.Error "Invalid response body") ∧
    (¬ (200 ≤ resp.StatusCode ∧ resp.StatusCode < 300) → resp.StatusCode ≠ 404 →
      resp.StatusCode ≠ 401 → resp.StatusCode ≠ 403 →
      ∃ e, errorOf (Client.GetInstance ⟨(header, none), fun _ _ => resp, json⟩ guid) = some e ∧
        e.Error = "Unexpected reponse status " ++ fmt.formatInt resp.StatusCode ++ ", "
          ++ ("\"" ++ resp.Body ++ "\"") ∧
        e.type ≠ ResourceNotFoundErrorType ∧ e.type ≠ UnauthorizedErrorType ∧
        e.type ≠ ForbiddenErrorType ∧ e.type ≠ InvalidResponseErrorType) := by
  have hget : Client.GetInstance ⟨(header, none), fun _ _ => resp, json⟩ guid
      = readResponse json json.decodeInstance resp := rfl
  rw [hget]
  unfold readResponse
  refine ⟨?_, ?_, ?_, ?_, ?_⟩
  · intro h
    exact ⟨⟨ResourceNotFoundErrorType, errorMessage json resp.Body⟩, by simp [h, errorOf], rfl⟩
  · intro h
    exact ⟨⟨UnauthorizedErrorType, errorMessage json resp.Body⟩, by simp [h, errorOf], rfl⟩
  · intro h
    exact ⟨⟨ForbiddenErrorType, errorMessage json resp.Body⟩, by simp [h, errorOf], rfl⟩
  · intro h t ht
    refine ⟨⟨InvalidResponseErrorType, "Invalid response body: " ++ t⟩,
      by simp [h, ht, errorOf], rfl, ?_⟩
    exact contains_append_left _ ⟨[], ": ".data, rfl⟩
  · intro h2xx h404 h401 h403
    exact ⟨unexpectedStatus resp, by simp [h2xx, h404, h401, h403, errorOf], rfl,
      by simp [unexpectedStatus, errors.New, ResourceNotFoundErrorType],
      by simp [unexpectedStatus, errors.New, UnauthorizedErrorType],
      by simp [unexpectedStatus, errors.New, ForbiddenErrorType],
      by simp [unexpectedStatus, errors.New, InvalidResponseErrorType]⟩

/-- Witness for C17: the 404 and the 500 answers of the test suite. -/
theorem getInstance_classification_witness :
    (∃ e, errorOf (Client.GetInstance
        ⟨("auth-header", none), fun _ _ => ⟨404, "not valid json"⟩,
          ⟨fun _ => none, fun _ => Except.error "invalid", fun _ => Except.error "invalid",
            fun _ => Except.error "invalid"⟩⟩ "783f8645") = some e ∧
      e.type = ResourceNotFoundErrorType) ∧
    (∃ e, errorOf (Client.GetInstance
        ⟨("auth-header", none), fun _ _ => ⟨500, "er ma gerd"⟩,
          ⟨fun _ => none, fun _ => Except.error "invalid", fun _ => Except.error "invalid",
            fun _ => Except.error "invalid"⟩⟩ "783f8645") = some e ∧
      e.Error = "Unexpected reponse status " ++ fmt.formatInt 500 ++ ", "
          ++ ("\"" ++ "er ma gerd" ++ "\"")) :=
  ⟨(getInstance_classification "auth-header"
      ⟨fun _ => none, fun _ => Except.error "invalid", fun _ => Except.error "invalid",
        fun _ => Except.error "invalid"⟩ ⟨404, "not valid json"⟩ "783f8645").1 rfl,
   let ⟨e, he, hmsg, _⟩ :=
    (getInstance_classification "auth-header"
      ⟨fun _ => none, fun _ => Except.error "invalid", fun _ => Except.error "invalid",
        fun _ => Except.error "invalid"⟩ ⟨500, "er ma gerd"⟩ "783f8645").2.2.2.2
      (by decide) (by decide) (by decide) (by decide)
   ⟨e, he, hmsg⟩⟩

/-- C18: for every 404, 401 or 403 response of the registry to a read request, whatever
the resource requested (`GetInstance` is one such request), the classified error has as
message the description of the body when the body decodes as a registry error object, and
the raw body text, unchanged, when the body does not decode. -/
theorem classified_error_message {α : Type} (header : String) (json : Decoder)
    (resp : Response) (decode : String → Except String α) (path : String)
    (hstatus : resp.StatusCode = 404 ∨ resp.StatusCode = 401 ∨ resp.StatusCode = 403) :
    ∃ e, errorOf (Client.get ⟨(header, none), fun _ _ => resp, json⟩ decode path) = some e ∧
      (e.type = ResourceNotFoundErrorType ∨ e.type = UnauthorizedErrorType ∨
        e.type = ForbiddenErrorType) ∧
      (∀ description, json.errorDescription resp.Body = some description →
        e.Error = description) ∧
      (json.errorDescription resp.Body = none → e.Error = resp.Body) := by
  have hget : Client.get ⟨(header, none), fun _ _ => resp, json⟩ decode path
      = readResponse json decode resp := rfl
  have hmsg : (∀ description, json.errorDescription resp.Body = some description →
        errorMessage json resp.Body = description) ∧
      (json.errorDescription resp.Body = none → errorMessage json resp.Body = resp.Body) := by
    unfold errorMessage
    constructor
    · intro description hd
      rw [hd]
    · intro hn
      rw [hn]
  rw [hget]
  unfold readResponse
  rcases hstatus with h | h | h
  · exact ⟨⟨ResourceNotFoundErrorType, errorMessage json resp.Body⟩, by simp [h, errorOf],
      Or.inl rfl, hmsg⟩
  · exact ⟨⟨UnauthorizedErrorType, errorMessage json resp.Body⟩, by simp [h, errorOf],
      Or.inr (Or.inl rfl), hmsg⟩
  · exact ⟨⟨ForbiddenErrorType, errorMessage json resp.Body⟩, by simp [h, errorOf],
      Or.inr (Or.inr rfl), hmsg⟩

/-- Witness for C18: `GetInstance` answered 404 with a body that is not JSON; the message
is the body. -/
theorem classified_error_message_witness :
    ∃ e, errorOf (Client.GetInstance
        ⟨("auth-header", none), fun _ _ => ⟨404, "not valid json"⟩,
          ⟨fun _ => none, fun _ => Except.error "invalid", fun _ => Except.error "invalid",
            fun _ => Except.error "invalid"⟩⟩ "783f8645") = some e ∧
      e.Error = "not valid json" :=
  let ⟨e, he, _, _, hraw⟩ :=
    classified_error_message "auth-header"
      ⟨fun _ => none, fun _ => Except.error "invalid", fun _ => Except.error "invalid",
        fun _ => Except.error "invalid"⟩ ⟨404, "not valid json"⟩
      (fun _ => (Except.error "invalid" : Except String Instance))
      ("/v2/service_instances/" ++ "783f8645") (Or.inl rfl)
  ⟨e, he, hraw rfl⟩

/-- Following linked pages with enough requests allowed returns what was gathered so far
followed by the resources of all pages, in order. -/
theorem listAll_of_linked {α : Type} (c : Client) (decode : String → Except String (Page α))
    (pages : List (Page α)) :
    ∀ (path : String) (all : List α) (fuel : Nat), Client.Linked c decode path pages →
      pages.length ≤ fuel →
      c.listAll decode fuel path all
        = some (Except.ok (all ++ (pages.map (fun page => page.Resources)).flatten)) := by
  induction pages with
  | nil =>
    intro path all fuel hlinked _
    have hpath : path = "" := hlinked
    cases fuel <;> simp [Client.listAll, hpath]
  | cons page rest ih =>
    intro path all fuel hlinked hfuel
    obtain ⟨hpath, hget, hrest⟩ := hlinked
    cases fuel with
    | zero => simp at hfuel
    | succ fuel =>
      have hlen : rest.length ≤ fuel := by simpa using hfuel
      simp only [Client.listAll, hpath, if_false, hget]
      rw [ih page.NextPath (all ++ page.Resources) fuel hrest hlen]
      simp [List.append_assoc]

/-- Following linked pages up to a failing request returns the error of that request. -/
theorem listAll_of_failure {α : Type} (c : Client) (decode : String → Except String (Page α))
    (err : GoError) (pages : List (Page α)) :
    ∀ (path : String) (all : List α) (fuel : Nat),
      Client.LinkedUntilFailure c decode err path pages → pages.length < fuel →
      c.listAll decode fuel path all = some (Except.error err) := by
  induction pages with
  | nil =>
    intro path all fuel hlinked hfuel
    obtain ⟨hpath, hget⟩ := hlinked
    cases fuel with
    | zero => simp at hfuel
    | succ fuel => simp only [Client.listAll, hpath, if_false, hget]
  | cons page rest ih =>
    intro path all fuel hlinked hfuel
    obtain ⟨hpath, hget, hrest⟩ := hlinked
    cases fuel with
    | zero => simp at hfuel
    | succ fuel =>
      have hlen : rest.length < fuel := by simpa using hfuel
      simp only [Client.listAll, hpath, if_false, hget]
      exact ih page.NextPath (all ++ page.Resources) fuel hrest hlen

/-- C19: for every sequence of N pages linked by next-page pointers from the first
request of `GetBindingsForInstance` or `GetServiceKeysForInstance` on, the operation,
allowed at least N requests, returns the concatenation of the resources of all pages in
request order; and when the pages are followed by a request that fails with an error,
the operation, allowed one request more, returns exactly that error and no list. -/
theorem pagination_follows_all_pages (c : Client) (guid : String)
    (bindingPages : List (Page Binding)) (keyPages : List (Page ServiceKey))
    (err : GoError) (fuel : Nat) :
    (Client.Linked c c.json.decodeBindings
        ("/v2/service_instances/" ++ guid ++ "/service_bindings") bindingPages →
      bindingPages.length ≤ fuel →
      c.GetBindingsForInstance fuel guid
        = some (Except.ok ((bindingPages.map (fun page => page.Resources)).flatten))) ∧
    (Client.Linked c c.json.decodeServiceKeys
        ("/v2/service_instances/" ++ guid ++ "/service_keys") keyPages →
      keyPages.length ≤ fuel →
      c.GetServiceKeysForInstance fuel guid
        = some (Except.ok ((keyPages.map (fun page => page.Resources)).flatten))) ∧
    (Client.LinkedUntilFailure c c.json.decodeBindings err
        ("/v2/service_instances/" ++ guid ++ "/service_bindings") bindingPages →
      bindingPages.length < fuel →
      c.GetBindingsForInstance fuel guid = some (Except.error err)) ∧
    (Client.LinkedUntilFailure c c.json.decodeServiceKeys err
        ("/v2/service_instances/" ++ guid ++ "/service_keys") keyPages →
      keyPages.length < fuel →
      c.GetServiceKeysForInstance fuel guid = some (Except.error err)) := by
  refine ⟨?_, ?_, ?_, ?_⟩
  · intro hlinked hfuel
    have h := listAll_of_linked c c.json.decodeBindings bindingPages _ [] fuel hlinked hfuel
    simpa [Client.GetBindingsForInstance] using h
  · intro hlinked hfuel
    have h := listAll_of_linked c c.json.decodeServiceKeys keyPages _ [] fuel hlinked hfuel
    simpa [Client.GetServiceKeysForInstance] using h
  · intro hlinked hfuel
    exact listAll_of_failure c c.json.decodeBindings err bindingPages _ [] fuel hlinked hfuel
  · intro hlinked hfuel
    exact listAll_of_failure c c.json.decodeServiceKeys err keyPages _ [] fuel hlinked hfuel

/-- Witness for C19: two pages of one binding each are returned as one list of two; and
when the second request is answered 500 the call returns that error. -/
theorem pagination_follows_all_pages_witness :
    Client.GetBindingsForInstance
        ⟨("auth-header", none),
          fun _ path =>
            if path = "/v2/service_instances/92d707ce/service_bindings" then ⟨200, "page 1"⟩
            else ⟨200, "page 2"⟩,
          ⟨fun _ => none, fun _ => Except.error "invalid",
            fun body =>
              if body = "page 1" then Except.ok ⟨[⟨"83a87158", "31809eda"⟩], "/page/2"⟩
              else Except.ok ⟨[⟨"9dad6b2c", "eefe662b"⟩], ""⟩,
            fun _ => Except.error "invalid"⟩⟩ 2 "92d707ce"
      = some (Except.ok [⟨"83a87158", "31809eda"⟩, ⟨"9dad6b2c", "eefe662b"⟩]) ∧
    Client.GetBindingsForInstance
        ⟨("auth-header", none),
          fun _ path =>
            if path = "/v2/service_instances/92d707ce/service_bindings" then ⟨200, "page 1"⟩
            else ⟨500, "no bindings for you"⟩,
          ⟨fun _ => none, fun _ => Except.error "invalid",
            fun body =>
              if body = "page 1" then Except.ok ⟨[⟨"83a87158", "31809eda"⟩], "/page/2"⟩
              else Except.ok ⟨[⟨"9dad6b2c", "eefe662b"⟩], ""⟩,
            fun _ => Except.error "invalid"⟩⟩ 2 "92d707ce"
      = some (Except.error (unexpectedStatus ⟨500, "no bindings for you"⟩)) :=
  ⟨(pagination_follows_all_pages
      ⟨("auth-header", none),
        fun _ path =>
          if path = "/v2/service_instances/92d707ce/service_bindings" then ⟨200, "page 1"⟩
          else ⟨200, "page 2"⟩,
        ⟨fun _ => none, fun _ => Except.error "invalid",
          fun body =>
            if body = "page 1" then Except.ok ⟨[⟨"83a87158", "31809eda"⟩], "/page/2"⟩
            else Except.ok ⟨[⟨"9dad6b2c", "eefe662b"⟩], ""⟩,
          fun _ => Except.error "invalid"⟩⟩
      "92d707ce"
      [⟨[⟨"83a87158", "31809eda"⟩], "/page/2"⟩, ⟨[⟨"9dad6b2c", "eefe662b"⟩], ""⟩] []
      (errors.New "unused") 2).1
      (And.intro (by decide) (And.intro rfl (And.intro (by decide) (And.intro rfl rfl))))
      (by decide),
   (pagination_follows_all_pages
      ⟨("auth-header", none),
        fun _ path =>
          if path = "/v2/service_instances/92d707ce/service_bindings" then ⟨200, "page 1"⟩
          else ⟨500, "no bindings for you"⟩,
        ⟨fun _ => none, fun _ => Except.error "invalid",
          fun body =>
            if body = "page 1" then Except.ok ⟨[⟨"83a87158", "31809eda"⟩], "/page/2"⟩
            else Except.ok ⟨[⟨"9dad6b2c", "eefe662b"⟩], ""⟩,
          fun _ => Except.error "invalid"⟩⟩
      "92d707ce"
      [⟨[⟨"83a87158", "31809eda"⟩], "/page/2"⟩] []
      (unexpectedStatus ⟨500, "no bindings for you"⟩) 2).2.2.1
      (And.intro (by decide) (And.intro rfl (And.intro (by decide) rfl)))
      (by decide)⟩

end cf

namespace mgmtapi

open broker

/-- Every metric of a count-map entry has the unit `count`. -/
theorem planMetrics_unit (offering : ServiceOffering) (plan : Plan) (instanceCount : Int) :
    ∀ m ∈ planMetrics offering plan instanceCount, m.Unit = "count" := by
  intro m hm
  unfold planMetrics at hm
  cases hlimit : plan.Quotas.ServiceInstanceLimit <;> simp [hlimit] at hm
  · rw [hm]
  · rcases hm with h | h <;> rw [h]

/-- The loop over a count map whose plan ids are all configured produces a result. -/
theorem countLoop_of_configured (offering : ServiceOffering) (counts : List (String × Int))
    (hconf : ∀ pc ∈ counts, (offering.FindByID pc.1).isSome = true) :
    ∃ brokerMetrics totalInstances,
      countLoop offering counts = some (brokerMetrics, totalInstances) := by
  induction counts with
  | nil => exact ⟨[], 0, rfl⟩
  | cons hd tl ih =>
    obtain ⟨planID, instanceCount⟩ := hd
    obtain ⟨ms, total, hrest⟩ := ih (fun pc hpc => hconf pc (List.mem_cons_of_mem _ hpc))
    have hfound := hconf (planID, instanceCount) (List.mem_cons_self _ _)
    obtain ⟨plan, hplan⟩ := Option.isSome_iff_exists.mp hfound
    have hplan2 : offering.FindByID planID = some plan := hplan
    exact ⟨planMetrics offering plan instanceCount ++ ms, instanceCount + total,
      by simp [countLoop, hplan2, hrest]⟩

/-- What the loop over the count map gathers: the running total is the sum of the
counts, every entry contributes the metrics of its plan, and all units are `count`. -/
theorem countLoop_spec (offering : ServiceOffering) (counts : List (String × Int)) :
    ∀ brokerMetrics totalInstances,
      countLoop offering counts = some (brokerMetrics, totalInstances) →
      totalInstances = (counts.map Prod.snd).sum ∧
      (∀ pc ∈ counts, ∀ plan, offering.FindByID pc.1 = some plan →
        ∀ m ∈ planMetrics offering plan pc.2, m ∈ brokerMetrics) ∧
      (∀ m ∈ brokerMetrics, m.Unit = "count") := by
  induction counts with
  | nil =>
    intro ms total h
    simp [countLoop] at h
    obtain ⟨rfl, rfl⟩ := h
    simp
  | cons hd tl ih =>
    intro ms total h
    obtain ⟨planID, instanceCount⟩ := hd
    unfold countLoop at h
    cases hplan : offering.FindByID planID with
    | none => simp [hplan] at h
    | some plan =>
      cases hrest : countLoop offering tl with
      | none => simp [hplan, hrest] at h
      | some r =>
        obtain ⟨ms2, total2⟩ := r
        simp [hplan, hrest] at h
        obtain ⟨rfl, rfl⟩ := h
        obtain ⟨hsum, hmem, hunit⟩ := ih ms2 total2 hrest
        refine ⟨by simp [hsum], ?_, ?_⟩
        · intro pc hpc plan2 hplan2 m hm
          rcases List.mem_cons.mp hpc with heq | htl
          · subst heq
            have hp : plan2 = plan := by
              have := hplan2.symm.trans hplan
              exact Option.some.inj this
            subst hp
            exact List.mem_append_left _ hm
          · exact List.mem_append_right _ (hmem pc htl plan2 hplan2 m hm)
        · intro m hm
          rcases List.mem_append.mp hm with h1 | h2
          · exact planMetrics_unit offering plan instanceCount m h1
          · exact hunit m h2

/-- C20 as stated fails: for the empty count map the metrics endpoint answers 503 and
reports no metric, in particular no aggregate `total_instances`. -/
theorem metrics_empty_count_map_unavailable :
    getMetrics ⟨"some_service_offering",
        [⟨"foo_id", "foo_plan", ⟨none⟩⟩, ⟨"bar_id", "bar_plan", ⟨none⟩⟩], ⟨none⟩⟩ ([], none)
      = some ⟨503, Body.unspecified⟩ ∧
    ¬ ∃ brokerMetrics,
      getMetrics ⟨"some_service_offering",
          [⟨"foo_id", "foo_plan", ⟨none⟩⟩, ⟨"bar_id", "bar_plan", ⟨none⟩⟩], ⟨none⟩⟩ ([], none)
        = some ⟨200, Body.metrics brokerMetrics⟩ := by
  refine ⟨by decide, ?_⟩
  rintro ⟨ms, h⟩
  have h503 : getMetrics ⟨"some_service_offering",
        [⟨"foo_id", "foo_plan", ⟨none⟩⟩, ⟨"bar_id", "bar_plan", ⟨none⟩⟩], ⟨none⟩⟩ ([], none)
      = some ⟨503, Body.unspecified⟩ := by decide
  rw [h503] at h
  cases h

/-- C20, amended: for every non-empty per-plan count map over configured plans, the
metrics endpoint answers 200 and reports, for each entry, a `total_instances` metric of
its plan equal to the count and, when the plan has a limit, a `quota_remaining` metric
equal to the limit minus that count; an aggregate `total_instances` of the offering equal
to the sum of all counts and, when a global limit is configured, a `quota_remaining`
equal to the global limit minus the aggregate; every metric has the unit `count`. The
empty count map is answered 503. -/
theorem metrics_arithmetic (offering : ServiceOffering) (counts : List (String × Int))
    (hne : counts ≠ [])
    (hconf : ∀ pc ∈ counts, (offering.FindByID pc.1).isSome = true) :
    (∃ brokerMetrics,
      getMetrics offering (counts, none) = some ⟨200, Body.metrics brokerMetrics⟩ ∧
      (∀ pc ∈ counts, ∀ plan, offering.FindByID pc.1 = some plan →
        (⟨"/on-demand-broker/" ++ offering.Name ++ "/" ++ plan.Name ++ "/total_instances",
            pc.2, "count"⟩ : Metric) ∈ brokerMetrics ∧
        (∀ limit, plan.Quotas.ServiceInstanceLimit = some limit →
          (⟨"/on-demand-broker/" ++ offering.Name ++ "/" ++ plan.Name ++ "/quota_remaining",
            limit - pc.2, "count"⟩ : Metric) ∈ brokerMetrics)) ∧
      (⟨"/on-demand-broker/" ++ offering.Name ++ "/total_instances",
          (counts.map Prod.snd).sum, "count"⟩ : Metric) ∈ brokerMetrics ∧
      (∀ limit, offering.GlobalQuotas.ServiceInstanceLimit = some limit →
        (⟨"/on-demand-broker/" ++ offering.Name ++ "/quota_remaining",
          limit - (counts.map Prod.snd).sum, "count"⟩ : Metric) ∈ brokerMetrics) ∧
      (∀ m ∈ brokerMetrics, m.Unit = "count")) ∧
    getMetrics offering ([], none) = some ⟨503, Body.unspecified⟩ := by
  refine ⟨?_, rfl⟩
  obtain ⟨ms, total, hloop⟩ := countLoop_of_configured offering counts hconf
  obtain ⟨hsum, hmem, hunit⟩ := countLoop_spec offering counts ms total hloop
  have hlen : counts.length ≠ 0 := by
    intro h
    exact hne (List.length_eq_zero.mp h)
  refine ⟨ms ++ globalMetrics offering total, ?_, ?_, ?_, ?_, ?_⟩
  · simp [getMetrics, hlen, hloop]
  · intro pc hpc plan hplan
    constructor
    · apply List.mem_append_left
      apply hmem pc hpc plan hplan
      unfold planMetrics
      cases plan.Quotas.ServiceInstanceLimit <;> simp
    · intro limit hlimit
      apply List.mem_append_left
      apply hmem pc hpc plan hplan
      unfold planMetrics
      simp [hlimit]
  · apply List.mem_append_right
    rw [← hsum]
    unfold globalMetrics
    cases offering.GlobalQuotas.ServiceInstanceLimit <;> simp
  · intro limit hlimit
    apply List.mem_append_right
    rw [← hsum]
    unfold globalMetrics
    simp [hlimit]
  · intro m hm
    rcases List.mem_append.mp hm with h1 | h2
    · exact hunit m h1
    · unfold globalMetrics at h2
      cases hlimit : offering.GlobalQuotas.ServiceInstanceLimit <;> simp [hlimit] at h2
      · rw [h2]
      · rcases h2 with h | h <;> rw [h]

/-- Witness for C20 amended: the offering of the test suite with a plan limit of 7 and a
global limit of 12, and the counts 2 and 3. -/
theorem metrics_arithmetic_witness :
    ∃ brokerMetrics,
      getMetrics ⟨"some_service_offering",
          [⟨"foo_id", "foo_plan", ⟨some 7⟩⟩, ⟨"bar_id", "bar_plan", ⟨none⟩⟩], ⟨some 12⟩⟩
          ([("foo_id", 2), ("bar_id", 3)], none)
        = some ⟨200, Body.metrics brokerMetrics⟩ ∧
      (⟨"/on-demand-broker/" ++ "some_service_offering" ++ "/total_instances",
          (([("foo_id", 2), ("bar_id", 3)] : List (String × Int)).map Prod.snd).sum,
          "count"⟩ : Metric) ∈ brokerMetrics :=
  let ⟨ms, hget, _, htotal, _, _⟩ :=
    (metrics_arithmetic ⟨"some_service_offering",
        [⟨"foo_id", "foo_plan", ⟨some 7⟩⟩, ⟨"bar_id", "bar_plan", ⟨none⟩⟩], ⟨some 12⟩⟩
      [("foo_id", 2), ("bar_id", 3)] (by decide) (by decide)).1
  ⟨ms, hget, htotal⟩

end mgmtapi

/-! ## Properties of the upgrade answer, the update token and the quota validator -/

namespace mgmtapi

open broker

/-- C21: for every result of the broker's `Upgrade`, the management API answers 202 with
the operation data on success, 404 when the error is a `cf.ResourceNotFoundError`, 410
when it is a deployment-not-found error, 409 when it is an `OperationInProgressError`,
and 500 with the error message as description for every other error. -/
theorem upgrade_status_mapping (data : OperationData) (err : GoError) :
    upgradeInstance (data, none) = ⟨202, Body.operationData data⟩ ∧
    (err.type = cf.ResourceNotFoundErrorType →
      (upgradeInstance (data, some err)).StatusCode = 404) ∧
    (err.type = DeploymentNotFoundErrorType →
      (upgradeInstance (data, some err)).StatusCode = 410) ∧
    (err.type = ErrorType.OperationInProgressError →
      (upgradeInstance (data, some err)).StatusCode = 409) ∧
    (err.type ≠ cf.ResourceNotFoundErrorType → err.type ≠ DeploymentNotFoundErrorType →
      err.type ≠ ErrorType.OperationInProgressError →
      upgradeInstance (data, some err) = ⟨500, Body.description err.Error⟩) := by
  refine ⟨rfl, ?_, ?_, ?_, ?_⟩
  · intro h
    unfold upgradeInstance
    simp only
    rw [if_pos h]
  · intro h
    have h1 : err.type ≠ cf.ResourceNotFoundErrorType := by
      rw [h]; decide
    unfold upgradeInstance
    simp only
    rw [if_neg h1, if_pos h]
  · intro h
    have h1 : err.type ≠ cf.ResourceNotFoundErrorType := by
      rw [h]; decide
    have h2 : err.type ≠ DeploymentNotFoundErrorType := by
      rw [h]; decide
    unfold upgradeInstance
    simp only
    rw [if_neg h1, if_neg h2, if_pos h]
  · intro h1 h2 h3
    unfold upgradeInstance
    simp only
    rw [if_neg h1, if_neg h2, if_neg h3]

/-- Witness for C21: the errors of the test suite, a deployment-not-found error and a
plain upgrade error. -/
theorem upgrade_status_mapping_witness :
    (upgradeInstance (⟨0, "", "", "", ""⟩,
        some ⟨DeploymentNotFoundErrorType, "error finding deployment"⟩)).StatusCode = 410 ∧
    upgradeInstance (⟨0, "", "", "", ""⟩, some (errors.New "upgrade error"))
      = ⟨500, Body.description (errors.New "upgrade error").Error⟩ :=
  ⟨(upgrade_status_mapping ⟨0, "", "", "", ""⟩
      ⟨DeploymentNotFoundErrorType, "error finding deployment"⟩).2.2.1 rfl,
   (upgrade_status_mapping ⟨0, "", "", "", ""⟩ (errors.New "upgrade error")).2.2.2.2
      (by decide) (by decide) (by decide)⟩

end mgmtapi

namespace broker

/-- C22: for every update of an instance to a configured plan that the director accepts,
the returned operation data has type update and the director's task id, its
`PostDeployErrandName` is the post-deploy errand name of the target plan, empty when none
is configured, and its `BoshContextID` is non-empty if and only if the target plan
declares a post-deploy errand. The generated context id is a non-empty identifier. -/
theorem update_token_and_errand (plan : Plan) (newContextID : String)
    (submit : String → Int × Option GoError) (boshTaskID : Int)
    (hid : newContextID ≠ "")
    (hsubmit : submit (if plan.PostDeployErrand.isSome then newContextID else "")
      = (boshTaskID, none)) :
    (Update plan false newContextID submit).2 = none ∧
    (Update plan false newContextID submit).1.OperationType = OperationTypeUpdate ∧
    (Update plan false newContextID submit).1.BoshTaskID = boshTaskID ∧
    (Update plan false newContextID submit).1.PostDeployErrandName
      = plan.PostDeployErrand.getD "" ∧
    (plan.PostDeployErrand = none →
      (Update plan false newContextID submit).1.PostDeployErrandName = "") ∧
    ((Update plan false newContextID submit).1.BoshContextID ≠ "" ↔
      plan.PostDeployErrand.isSome = true) := by
  have hupdate : Update plan false newContextID submit
      = (⟨boshTaskID, if plan.PostDeployErrand.isSome then newContextID else "",
          OperationTypeUpdate, "", plan.PostDeployErrand.getD ""⟩, none) := by
    unfold Update
    simp only [Bool.false_eq_true, if_false]
    rw [hsubmit]
  rw [hupdate]
  refine ⟨rfl, rfl, rfl, rfl, ?_, ?_⟩
  · intro hnone
    simp [hnone]
  · cases hp : plan.PostDeployErrand <;> simp [hid]

/-- Witness for C22: the plan of the test suite with its post-deploy errand. -/
theorem update_token_and_errand_witness :
    (Update ⟨"post-deploy-errand-id", some "post-deploy-errand-name", none⟩ false
        "6ba7b810-9dad-11d1-80b4-00c04fd430c8" (fun _ => (4711, none))).1.PostDeployErrandName
      = (some "post-deploy-errand-name" : Option String).getD "" ∧
    (Update ⟨"post-deploy-errand-id", some "post-deploy-errand-name", none⟩ false
        "6ba7b810-9dad-11d1-80b4-00c04fd430c8" (fun _ => (4711, none))).1.BoshTaskID = 4711 :=
  have h := update_token_and_errand
    ⟨"post-deploy-errand-id", some "post-deploy-errand-name", none⟩
    "6ba7b810-9dad-11d1-80b4-00c04fd430c8" (fun _ => (4711, none)) 4711 (by decide) rfl
  ⟨h.2.2.2.1, h.2.2.1⟩

end broker

namespace QuotaValidator

/-- One scope allows a further instance exactly when no limit is configured or the count
is below the limit. -/
theorem allows_iff (count : Int) (limit : Option Int) :
    allows count limit = true ↔ (limit = none ∨ ∃ l, limit = some l ∧ count < l) := by
  cases limit with
  | none => simp [allows]
  | some l =>
    simp only [allows, decide_eq_true_eq, Option.some.injEq, exists_eq_left', false_or,
      reduceCtorEq]
    omega

/-- C23: for every configured limit L and current count C, a scope allows a new
provision if and only if C < L, and always when no limit is configured; C = L - 1 is
allowed and C = L is rejected; and a provision of a plan is allowed if and only if the
plan limit allows that plan's count alone and the global limit allows the sum of all
plan counts. -/
theorem quota_boundary (counts : List (String × Int)) (planID : String)
    (planLimit globalLimit : Option Int) (C L : Int) :
    (allows C (some L) = true ↔ C < L) ∧
    allows C none = true ∧
    allows (L - 1) (some L) = true ∧
    allows L (some L) = false ∧
    (canProvision counts planID planLimit globalLimit = true ↔
      ((planLimit = none ∨ ∃ l, planLimit = some l ∧ planCount counts planID < l) ∧
       (globalLimit = none ∨ ∃ l, globalLimit = some l ∧ (counts.map Prod.snd).sum < l))) := by
  refine ⟨?_, rfl, ?_, ?_, ?_⟩
  · simp only [allows, decide_eq_true_eq]
    omega
  · simp [allows]
  · simp [allows]
  · unfold canProvision
    rw [Bool.and_eq_true, allows_iff, allows_iff]
    rfl

end QuotaValidator

/-! ## Further properties of the error taxonomy and of the startup checks -/

namespace broker

/-- C24: for every `UnknownFailureError`, `adapterToAPIError` returns the error itself,
unchanged, when its message is non-empty, and the user-facing error of
`NewGenericError ctx err` when its message is the empty string. -/
theorem adapterToAPIError_unknown_failure (api : BrokerAPIErrors) (ctx : Context)
    (msg : String) :
    (msg ≠ "" →
      adapterToAPIError api ctx (some ⟨ErrorType.UnknownFailureError, msg⟩)
        = some ⟨ErrorType.UnknownFailureError, msg⟩) ∧
    (msg = "" →
      adapterToAPIError api ctx (some ⟨ErrorType.UnknownFailureError, msg⟩)
        = (NewGenericError ctx (some ⟨ErrorType.UnknownFailureError, msg⟩)).ErrorForCFUser) := by
  constructor
  · intro h
    simp [adapterToAPIError, GoError.Error, h]
  · intro h
    simp [adapterToAPIError, GoError.Error, h]

/-- Witness for C24: an unknown failure with a message, and one without. -/
theorem adapterToAPIError_unknown_failure_witness :
    adapterToAPIError ⟨errors.New "exists", errors.New "missing", errors.New "no app guid"⟩
        ⟨"redis", "guid-1", "req-7", "bind", 42⟩
        (some ⟨ErrorType.UnknownFailureError, "disk full"⟩)
      = some ⟨ErrorType.UnknownFailureError, "disk full"⟩ ∧
    adapterToAPIError ⟨errors.New "exists", errors.New "missing", errors.New "no app guid"⟩
        ⟨"redis", "guid-1", "req-7", "bind", 42⟩
        (some ⟨ErrorType.UnknownFailureError, ""⟩)
      = (NewGenericError ⟨"redis", "guid-1", "req-7", "bind", 42⟩
          (some ⟨ErrorType.UnknownFailureError, ""⟩)).ErrorForCFUser :=
  ⟨(adapterToAPIError_unknown_failure
      ⟨errors.New "exists", errors.New "missing", errors.New "no app guid"⟩
      ⟨"redis", "guid-1", "req-7", "bind", 42⟩ "disk full").1 (by decide),
   (adapterToAPIError_unknown_failure
      ⟨errors.New "exists", errors.New "missing", errors.New "no app guid"⟩
      ⟨"redis", "guid-1", "req-7", "bind", 42⟩ "").2 rfl⟩

/-- C25: for every context and error, `adapterToAPIError ctx err` is nil if and only if
`err` is nil. -/
theorem adapterToAPIError_nil_iff (api : BrokerAPIErrors) (ctx : Context)
    (err : Option GoError) :
    adapterToAPIError api ctx err = none ↔ err = none := by
  cases err with
  | none => simp [adapterToAPIError]
  | some e =>
    obtain ⟨t, m⟩ := e
    cases t <;>
      simp [adapterToAPIError, NewGenericError, DisplayableError.ErrorForCFUser, GoError.Error]
    split_ifs <;> simp

/-- C26: `Occurred()` is true if and only if both the user-facing and the
operator-facing error are non-nil; so `NilError.Occurred()` is false,
`NewDisplayableError(u, nil).Occurred()` is false whatever `u`, and
`NewGenericError(ctx, err).Occurred()` is true exactly when `err` is non-nil. -/
theorem occurred_iff (e : DisplayableError) (u err : Option GoError) (ctx : Context) :
    (e.Occurred = true ↔ (e.errorForCFUser ≠ none ∧ e.errorForOperator ≠ none)) ∧
    NilError.Occurred = false ∧
    (NewDisplayableError u none).Occurred = false ∧
    ((NewGenericError ctx err).Occurred = true ↔ err ≠ none) := by
  refine ⟨?_, rfl, ?_, ?_⟩
  · obtain ⟨user, operator⟩ := e
    cases user <;> cases operator <;> simp [DisplayableError.Occurred]
  · cases u <;> simp [NewDisplayableError, DisplayableError.Occurred]
  · cases err <;> simp [NewGenericError, DisplayableError.Occurred]

/-- The CF API check makes exactly the one call `GetAPIVersion`. -/
theorem checkCFAPIVersion_calls (b : Broker) :
    b.checkCFAPIVersion.calls = [Call.GetAPIVersion] := by
  unfold Broker.checkCFAPIVersion
  rcases hget : b.cfClient.GetAPIVersion with ⟨raw, err⟩
  cases err with
  | some e => rfl
  | none =>
    simp only
    cases hparse : semver.NewVersion raw with
    | none => rfl
    | some v =>
      simp only
      split_ifs <;> rfl

/-- The director check makes exactly the one call `GetDirectorVersion`. -/
theorem checkBoshDirectorVersion_calls (b : Broker) (minErrands : Int) :
    (b.checkBoshDirectorVersion minErrands).calls = [Call.GetDirectorVersion] := by
  unfold Broker.checkBoshDirectorVersion
  rcases hget : b.boshClient.GetDirectorVersion with ⟨v, err⟩
  cases err with
  | some e => rfl
  | none =>
    simp only
    split_ifs <;> rfl

/-- The API version checks make both remote calls, the CF one first, whatever they
return. -/
theorem checkAPIVersions_calls (b : Broker) (minErrands : Int) :
    (b.checkAPIVersions minErrands).calls = [Call.GetAPIVersion, Call.GetDirectorVersion] := by
  have h : (b.checkAPIVersions minErrands).calls
      = b.checkCFAPIVersion.calls ++ (b.checkBoshDirectorVersion minErrands).calls := by
    unfold Broker.checkAPIVersions
    simp only
    split_ifs <;> rfl
  rw [h, checkCFAPIVersion_calls, checkBoshDirectorVersion_calls]
  rfl

/-- C27: `checkAPIVersions` always runs both the CF check and the BOSH director check,
returns nil if and only if both succeed, and otherwise returns an error whose message is
the messages of the failing checks, prefixed `CF API error: ` and
`BOSH Director error: `, joined by a single space with the CF message first. -/
theorem checkAPIVersions_reports_all (b : Broker) (minErrands : Int) :
    (b.checkAPIVersions minErrands).calls = [Call.GetAPIVersion, Call.GetDirectorVersion] ∧
    ((b.checkAPIVersions minErrands).err = none ↔
      (b.checkCFAPIVersion.err = none ∧ (b.checkBoshDirectorVersion minErrands).err = none)) ∧
    (∀ e1, b.checkCFAPIVersion.err = some e1 →
      (b.checkBoshDirectorVersion minErrands).err = none →
      (b.checkAPIVersions minErrands).err = some (errors.New ("CF API error: " ++ e1.Error))) ∧
    (∀ e2, b.checkCFAPIVersion.err = none →
      (b.checkBoshDirectorVersion minErrands).err = some e2 →
      (b.checkAPIVersions minErrands).err
        = some (errors.New ("BOSH Director error: " ++ e2.Error))) ∧
    (∀ e1 e2, b.checkCFAPIVersion.err = some e1 →
      (b.checkBoshDirectorVersion minErrands).err = some e2 →
      (b.checkAPIVersions minErrands).err
        = some (errors.New
            ("CF API error: " ++ e1.Error ++ " " ++ ("BOSH Director error: " ++ e2.Error)))) := by
  refine ⟨checkAPIVersions_calls b minErrands, checkAPIVersions_err_eq_none_iff b minErrands,
    ?_, ?_, ?_⟩
  · intro e1 h1 h2
    unfold Broker.checkAPIVersions
    simp [h1, h2, strings.Join]
  · intro e2 h1 h2
    unfold Broker.checkAPIVersions
    simp [h1, h2, strings.Join]
  · intro e1 e2 h1 h2
    unfold Broker.checkAPIVersions
    simp [h1, h2, strings.Join]

/-- Witness for C27: a CF API version that is too low together with a director that does
not support ODB. -/
theorem checkAPIVersions_reports_all_witness :
    (Broker.checkAPIVersions
        ⟨⟨("2.56.9", none), fun _ => ([], none)⟩, ⟨(⟨false, false⟩, none)⟩,
          ⟨"offering", []⟩⟩ 261).err
      = some (errors.New
          ("CF API error: "
            ++ (errors.New
                "Cloud Foundry API version is insufficient, ODB requires CF v238+.").Error
            ++ " "
            ++ ("BOSH Director error: "
              ++ (errors.New "API version is insufficient, ODB requires BOSH v257+.").Error))) :=
  (checkAPIVersions_reports_all
      ⟨⟨("2.56.9", none), fun _ => ([], none)⟩, ⟨(⟨false, false⟩, none)⟩,
        ⟨"offering", []⟩⟩ 261).2.2.2.2
    (errors.New "Cloud Foundry API version is insufficient, ODB requires CF v238+.")
    (errors.New "API version is insufficient, ODB requires BOSH v257+.")
    (by decide) (by decide)

/-- C28: whenever `checkAPIVersions` returns an error, `startupChecks` returns exactly
that error after the two version calls only: the plan-id check is not run and
`CountInstancesOfServiceOffering` is not called. -/
theorem startupChecks_short_circuits (b : Broker) (minErrands : Int) (e : GoError)
    (hfail : (b.checkAPIVersions minErrands).err = some e) :
    (b.startupChecks minErrands).err = some e ∧
    (b.startupChecks minErrands).calls = [Call.GetAPIVersion, Call.GetDirectorVersion] ∧
    (∀ serviceOfferingID,
      Call.CountInstancesOfServiceOffering serviceOfferingID
        ∉ (b.startupChecks minErrands).calls) := by
  have hstart : b.startupChecks minErrands
      = ⟨some e, (b.checkAPIVersions minErrands).calls⟩ := by
    unfold Broker.startupChecks
    simp only [hfail]
  rw [hstart, checkAPIVersions_calls]
  refine ⟨rfl, rfl, ?_⟩
  intro serviceOfferingID hmem
  simp at hmem

/-- Witness for C28: the CF API version is too low while a plan with a live instance
has been removed; startup reports the version error and never counts instances. -/
theorem startupChecks_short_circuits_witness :
    (Broker.startupChecks
        ⟨⟨("2.56.9", none), fun _ => ([("gone", 1)], none)⟩, ⟨(⟨true, true⟩, none)⟩,
          ⟨"offering", [⟨"small", none, none⟩]⟩⟩ 261).calls
      = [Call.GetAPIVersion, Call.GetDirectorVersion] :=
  (startupChecks_short_circuits
      ⟨⟨("2.56.9", none), fun _ => ([("gone", 1)], none)⟩, ⟨(⟨true, true⟩, none)⟩,
        ⟨"offering", [⟨"small", none, none⟩]⟩⟩ 261
      (errors.New ("CF API error: "
        ++ "Cloud Foundry API version is insufficient, ODB requires CF v238+."))
      (by decide)).2.1

/-- The loop of the plan-id check gives the same result on any two visiting orders of
the same entries. -/
theorem verifyPlanIDsLoop_perm (plans : List Plan) (m1 m2 : List (String × Int))
    (hperm : m1.Perm m2) :
    verifyPlanIDsLoop plans m1 = verifyPlanIDsLoop plans m2 := by
  have hiff : verifyPlanIDsLoop plans m1 ≠ none ↔ verifyPlanIDsLoop plans m2 ≠ none := by
    rw [verifyPlanIDsLoop_ne_none_iff, verifyPlanIDsLoop_ne_none_iff]
    constructor
    · rintro ⟨pc, hmem, h⟩
      exact ⟨pc, hperm.mem_iff.mp hmem, h⟩
    · rintro ⟨pc, hmem, h⟩
      exact ⟨pc, hperm.mem_iff.mpr hmem, h⟩
  rcases verifyPlanIDsLoop_eq plans m1 with h1 | h1 <;>
    rcases verifyPlanIDsLoop_eq plans m2 with h2 | h2
  · rw [h1, h2]
  · exact absurd h1 (hiff.mpr (by rw [h2]; simp))
  · exact absurd h2 (hiff.mp (by rw [h1]; simp))
  · rw [h1, h2]

/-- C29: for a fixed count map and a fixed plan catalog, the plan-id startup check
returns the same result, nil or the same error, for every order in which the entries of
the count map are visited. -/
theorem planIDs_check_order_independent (apiVersion : String × Option GoError)
    (boshClient : BoshClient) (offering : ServiceOffering) (m1 m2 : List (String × Int))
    (err : Option GoError) (hperm : m1.Perm m2) :
    Broker.verifyExistingInstancePlanIDsUnchanged
        ⟨⟨apiVersion, fun _ => (m1, err)⟩, boshClient, offering⟩
      = Broker.verifyExistingInstancePlanIDsUnchanged
        ⟨⟨apiVersion, fun _ => (m2, err)⟩, boshClient, offering⟩ := by
  unfold Broker.verifyExistingInstancePlanIDsUnchanged
  cases err with
  | some e => rfl
  | none =>
    simp only
    rw [verifyPlanIDsLoop_perm offering.Plans m1 m2 hperm]

/-- Witness for C29: two removed plans with live instances, visited in either order. -/
theorem planIDs_check_order_independent_witness :
    Broker.verifyExistingInstancePlanIDsUnchanged
        ⟨⟨("2.57.0", none), fun _ => ([("gone", 1), ("small", 3)], none)⟩,
          ⟨(⟨true, true⟩, none)⟩, ⟨"offering", [⟨"small", none, none⟩]⟩⟩
      = Broker.verifyExistingInstancePlanIDsUnchanged
        ⟨⟨("2.57.0", none), fun _ => ([("small", 3), ("gone", 1)], none)⟩,
          ⟨(⟨true, true⟩, none)⟩, ⟨"offering", [⟨"small", none, none⟩]⟩⟩ :=
  planIDs_check_order_independent ("2.57.0", none) ⟨(⟨true, true⟩, none)⟩
    ⟨"offering", [⟨"small", none, none⟩]⟩ [("gone", 1), ("small", 3)]
    [("small", 3), ("gone", 1)] none (List.Perm.swap _ _ _)

end broker

/-! ## Properties of the generated fake -/

namespace fakes

open broker

/-- A call appends its arguments to the recorded ones, whatever it returns. -/
theorem DisableServiceAccess_args (fake : FakeCloudFoundryClient) (serviceOfferingID : String)
    (logger : Logger) :
    (fake.DisableServiceAccess serviceOfferingID logger).1.disableServiceAccessArgsForCall
      = fake.disableServiceAccessArgsForCall ++ [(serviceOfferingID, logger)] := by
  unfold FakeCloudFoundryClient.DisableServiceAccess
  simp only
  cases fake.DisableServiceAccessStub with
  | some stub => rfl
  | none =>
    simp only
    cases fake.disableServiceAccessReturnsOnCall.lookup
      (Int.ofNat fake.disableServiceAccessArgsForCall.length) <;> rfl

/-- A call leaves the stub and the configured results as they are. -/
theorem DisableServiceAccess_config (fake : FakeCloudFoundryClient) (serviceOfferingID : String)
    (logger : Logger) :
    (fake.DisableServiceAccess serviceOfferingID logger).1.DisableServiceAccessStub
      = fake.DisableServiceAccessStub ∧
    (fake.DisableServiceAccess serviceOfferingID logger).1.disableServiceAccessReturns
      = fake.disableServiceAccessReturns ∧
    (fake.DisableServiceAccess serviceOfferingID logger).1.disableServiceAccessReturnsOnCall
      = fake.disableServiceAccessReturnsOnCall := by
  unfold FakeCloudFoundryClient.DisableServiceAccess
  simp only
  cases fake.DisableServiceAccessStub with
  | some stub => exact ⟨rfl, rfl, rfl⟩
  | none =>
    simp only
    cases fake.disableServiceAccessReturnsOnCall.lookup
      (Int.ofNat fake.disableServiceAccessArgsForCall.length) <;> exact ⟨rfl, rfl, rfl⟩

/-- A run of calls appends the arguments of all of them, in order. -/
theorem callAll_args (calls : List (String × Logger)) :
    ∀ fake : FakeCloudFoundryClient,
      (fake.callAll calls).disableServiceAccessArgsForCall
        = fake.disableServiceAccessArgsForCall ++ calls := by
  induction calls with
  | nil => intro fake; simp [FakeCloudFoundryClient.callAll]
  | cons call rest ih =>
    intro fake
    obtain ⟨serviceOfferingID, logger⟩ := call
    simp only [FakeCloudFoundryClient.callAll]
    rw [ih, DisableServiceAccess_args]
    simp

/-- Reading a key of the map right after assigning it gives the assigned value. -/
theorem lookup_mapSet {β : Type} (m : List (Int × β)) (key : Int) (value : β) :
    (mapSet m key value).lookup key = some value := by
  simp [mapSet, List.lookup]

/-- C30: each call to `DisableServiceAccess` increases the call count by exactly one,
records its arguments under the index of the call and keeps the earlier records, so that
after a run of calls on a fresh fake `ArgsForCall(i)` gives the arguments of the i-th
call; the call returns the result of the stub if one is set, otherwise the result
configured for its index if any, otherwise the result configured by `Returns`, nil on a
fresh fake; and both `Returns` and `ReturnsOnCall` clear the stub. -/
theorem fake_records_calls_and_resolves_returns (fake : FakeCloudFoundryClient)
    (serviceOfferingID : String) (logger : Logger) (i : Int) (result1 : Option GoError)
    (calls : List (String × Logger)) :
    ((fake.DisableServiceAccess serviceOfferingID logger).1.DisableServiceAccessCallCount
      = fake.DisableServiceAccessCallCount + 1) ∧
    ((fake.DisableServiceAccess serviceOfferingID logger).1.DisableServiceAccessArgsForCall
        fake.DisableServiceAccessCallCount = some (serviceOfferingID, logger)) ∧
    (∀ j : Int, 0 ≤ j → j < fake.DisableServiceAccessCallCount →
      (fake.DisableServiceAccess serviceOfferingID logger).1.DisableServiceAccessArgsForCall j
        = fake.DisableServiceAccessArgsForCall j) ∧
    ((FakeCloudFoundryClient.new.callAll calls).DisableServiceAccessCallCount
      = Int.ofNat calls.length) ∧
    (∀ k : Nat, k < calls.length →
      (FakeCloudFoundryClient.new.callAll calls).DisableServiceAccessArgsForCall (Int.ofNat k)
        = calls.get? k) ∧
    ((fake.DisableServiceAccess serviceOfferingID logger).2
      = match fake.DisableServiceAccessStub with
        | some stub => stub serviceOfferingID logger
        | none =>
          match fake.disableServiceAccessReturnsOnCall.lookup
              fake.DisableServiceAccessCallCount with
          | some ret => ret
          | none => fake.disableServiceAccessReturns) ∧
    (((fake.DisableServiceAccessReturnsOnCall fake.DisableServiceAccessCallCount
        result1).DisableServiceAccess serviceOfferingID logger).2 = result1) ∧
    (fake.disableServiceAccessReturnsOnCall.lookup fake.DisableServiceAccessCallCount = none →
      ((fake.DisableServiceAccessReturns result1).DisableServiceAccess
        serviceOfferingID logger).2 = result1) ∧
    ((FakeCloudFoundryClient.new.DisableServiceAccess serviceOfferingID logger).2 = none) ∧
    ((fake.DisableServiceAccessReturns result1).DisableServiceAccessStub.isNone = true) ∧
    ((fake.DisableServiceAccessReturnsOnCall i result1).DisableServiceAccessStub.isNone
      = true) := by
  refine ⟨?_, ?_, ?_, ?_, ?_, ?_, ?_, ?_, rfl, rfl, rfl⟩
  · unfold FakeCloudFoundryClient.DisableServiceAccessCallCount
    rw [DisableServiceAccess_args]
    simp
  · unfold FakeCloudFoundryClient.DisableServiceAccessArgsForCall
      FakeCloudFoundryClient.DisableServiceAccessCallCount
    rw [DisableServiceAccess_args]
    simp
  · intro j hj0 hj
    unfold FakeCloudFoundryClient.DisableServiceAccessCallCount at hj
    unfold FakeCloudFoundryClient.DisableServiceAccessArgsForCall
    rw [DisableServiceAccess_args]
    have hlt : j.toNat < fake.disableServiceAccessArgsForCall.length := by
      have : (Int.ofNat fake.disableServiceAccessArgsForCall.length : Int)
          = (fake.disableServiceAccessArgsForCall.length : Int) := rfl
      omega
    have hneg : ¬ j < 0 := by omega
    simp only [hneg, if_false, List.get?_eq_getElem?]
    exact List.getElem?_append_left hlt
  · unfold FakeCloudFoundryClient.DisableServiceAccessCallCount
    rw [callAll_args]
    simp [FakeCloudFoundryClient.new]
  · intro k _
    unfold FakeCloudFoundryClient.DisableServiceAccessArgsForCall
    rw [callAll_args]
    simp [FakeCloudFoundryClient.new]
  · unfold FakeCloudFoundryClient.DisableServiceAccess
      FakeCloudFoundryClient.DisableServiceAccessCallCount
    simp only
    cases fake.DisableServiceAccessStub with
    | some stub => rfl
    | none =>
      simp only
      cases fake.disableServiceAccessReturnsOnCall.lookup
        (Int.ofNat fake.disableServiceAccessArgsForCall.length) <;> rfl
  · unfold FakeCloudFoundryClient.DisableServiceAccess
      FakeCloudFoundryClient.DisableServiceAccessReturnsOnCall
      FakeCloudFoundryClient.DisableServiceAccessCallCount
    simp only [lookup_mapSet]
  · intro hnone
    unfold FakeCloudFoundryClient.DisableServiceAccessCallCount at hnone
    unfold FakeCloudFoundryClient.DisableServiceAccess
      FakeCloudFoundryClient.DisableServiceAccessReturns
    simp only [hnone]

/-- Witness for C30: a fake given a stub, then told to return an error on call 0; the
stub is gone and the first call returns that error. -/
theorem fake_records_calls_and_resolves_returns_witness :
    ((FakeCloudFoundryClient.DisableServiceAccessReturnsOnCall
        ⟨some (fun _ _ => some (errors.New "from stub")), [], none, [], []⟩ 0
        (some (errors.New "disabled"))).DisableServiceAccess "offering-id" 7).2
      = some (errors.New "disabled") ∧
    ((FakeCloudFoundryClient.DisableServiceAccessReturns
        ⟨some (fun _ _ => some (errors.New "from stub")), [], none, [], []⟩
        (some (errors.New "disabled"))).DisableServiceAccess "offering-id" 7).2
      = some (errors.New "disabled") :=
  ⟨(fake_records_calls_and_resolves_returns
      ⟨some (fun _ _ => some (errors.New "from stub")), [], none, [], []⟩
      "offering-id" 7 0 (some (errors.New "disabled")) []).2.2.2.2.2.2.1,
   (fake_records_calls_and_resolves_returns
      ⟨some (fun _ _ => some (errors.New "from stub")), [], none, [], []⟩
      "offering-id" 7 0 (some (errors.New "disabled")) []).2.2.2.2.2.2.2.1 rfl⟩

end fakes
